import Mathlib

set_option maxHeartbeats 1000000
set_option autoImplicit false

/-
  Verification of the inxi JSON normalization core of big-hardware-info
  (src/app/collectors/inxi_parser.py), shallowly embedded in Lean 4.

  Modelling conventions:
  * JSON/Python values are the inductive `JValue`; Python floats are
    idealized as exact rationals (they originate from decimal literals).
  * Python dicts are association lists in insertion order; assigning an
    existing key updates it in place, a new key is appended (CPython
    semantics for `d[k] = v`).
  * `str.lower`/`str.upper`/`str.isdigit` and the regex character class
    `\d` are modelled over ASCII (the only characters the parser's
    keyword tables and inxi fields use).
  * Fallible Python operations run in `Except PyErr`; an uncaught
    exception of the source is an `.error` result of the embedding.
  * External commands invoked by the enrichment sub-collectors (`ip`,
    `resolvectl`, `uptime`, `hostname`, `sensors`, ...) are out-of-scope
    collaborators; their already-decoded outcomes are an `Env` parameter.
-/

namespace Inxi

/-- Values of the parsed inxi JSON document and of the Python runtime:
`null`/`bool`/`int`/`num` (float as exact rational)/`str`, plus lists,
string-keyed dicts and the int-keyed dict used for `core_speeds`. -/
inductive JValue where
  | null
  | bool (b : Bool)
  | int (n : Int)
  | num (q : ℚ)
  | str (s : String)
  | list (xs : List JValue)
  | dict (kvs : List (String × JValue))
  | idict (kvs : List (Nat × JValue))
deriving Repr

/-- Python dict with string keys, in insertion order. -/
abbrev PyDict := List (String × JValue)

/-- Python truthiness (`if v:`). -/
def pyTruthy : JValue → Bool
  | .null => false
  | .bool b => b
  | .int n => n != 0
  | .num q => q != 0
  | .str s => s != ""
  | .list xs => !xs.isEmpty
  | .dict kvs => !kvs.isEmpty
  | .idict kvs => !kvs.isEmpty

/-- The source's absent-value test `v in (None, "", [])`. -/
def pyAbsent : JValue → Bool
  | .null => true
  | .str s => s == ""
  | .list xs => xs.isEmpty
  | _ => false

/-- Suffix of a character list after its last `#` (the whole list when
there is no `#`), i.e. Python `key.split("#")[-1]`. -/
def afterHash (cs : List Char) : List Char :=
  cs.foldl (fun acc c => if c = '#' then [] else acc ++ [c]) []

/-- The key normalizer `InxiParser._clean_key`: strip the inxi ordering
metadata by keeping the part after the last `#`. -/
def cleanKey (k : String) : String :=
  if k.data.contains '#' then ⟨afterHash k.data⟩ else k

/-- First binding of a key in a dict (`d[k]` / `d.get(k)`). -/
def dGet : PyDict → String → Option JValue
  | [], _ => none
  | (k', v) :: rest, k => if k' = k then some v else dGet rest k

/-- Lookup with default (`d.get(k, v₀)`). -/
def dGetD (d : PyDict) (k : String) (v₀ : JValue) : JValue :=
  (dGet d k).getD v₀

/-- Key membership (`k in d`). -/
def dMem (d : PyDict) (k : String) : Bool :=
  (dGet d k).isSome

/-- CPython `d[k] = v`: update an existing key in place, append a new one. -/
def dSet : PyDict → String → JValue → PyDict
  | [], k, v => [(k, v)]
  | (k', v') :: rest, k, v =>
      if k' = k then (k, v) :: rest else (k', v') :: dSet rest k v

/-- Python `d₁.update(d₂)`. -/
def dUpdate (d₁ d₂ : PyDict) : PyDict :=
  d₂.foldl (fun acc kv => dSet acc kv.1 kv.2) d₁

/-- `d[k] = v` for the int-keyed `core_speeds` dict. -/
def iSet : List (Nat × JValue) → Nat → JValue → List (Nat × JValue)
  | [], k, v => [(k, v)]
  | (k', v') :: rest, k, v =>
      if k' = k then (k, v) :: rest else (k', v') :: iSet rest k v

/-- ASCII lower-casing of one character. -/
def asciiLowerChar (c : Char) : Char :=
  if 'A' ≤ c ∧ c ≤ 'Z' then Char.ofNat (c.toNat + 32) else c

/-- ASCII upper-casing of one character. -/
def asciiUpperChar (c : Char) : Char :=
  if 'a' ≤ c ∧ c ≤ 'z' then Char.ofNat (c.toNat - 32) else c

/-- Python `s.lower()` (ASCII). -/
def lowerStr (s : String) : String := ⟨s.data.map asciiLowerChar⟩

/-- Python `s.upper()` (ASCII). -/
def upperStr (s : String) : String := ⟨s.data.map asciiUpperChar⟩

/-- Whether `pat` is an initial segment of `cs`. -/
def startsWithL : List Char → List Char → Bool
  | _, [] => true
  | [], _ :: _ => false
  | c :: cs, p :: ps => c == p && startsWithL cs ps

/-- Whether `pat` occurs inside `cs` (Python substring containment). -/
def hasSubL : List Char → List Char → Bool
  | [], pat => startsWithL [] pat
  | l@(_ :: rest), pat => startsWithL l pat || hasSubL rest pat

/-- Python `pat in s` on strings. -/
def pyIn (pat s : String) : Bool := hasSubL s.data pat.data

/-- ASCII digit test (model of `\d` and `str.isdigit`). -/
def isDigitCh (c : Char) : Bool := '0' ≤ c && c ≤ '9'

/-- Character class `[\d.]`. -/
def digitOrDot (c : Char) : Bool := isDigitCh c || c == '.'

/-- Python `k.isdigit()` (ASCII): nonempty and all digits. -/
def pyIsDigit (s : String) : Bool := !s.data.isEmpty && s.data.all isDigitCh

/-- Numeric value of a digit string. -/
def natOfDigits (ds : List Char) : Nat :=
  ds.foldl (fun n c => n * 10 + (c.toNat - 48)) 0

/-- Python `float(run)` for a run drawn from `[\d.]+`: defined exactly
when the run has at least one digit and at most one dot. -/
def floatOfRun (cs : List Char) : Option ℚ :=
  if cs.count '.' ≤ 1 ∧ cs.any isDigitCh then
    let ip := cs.takeWhile (fun c => c ≠ '.')
    let fp := (cs.dropWhile (fun c => c ≠ '.')).drop 1
    some ((natOfDigits ip : ℚ) + (natOfDigits fp : ℚ) / (10 : ℚ) ^ fp.length)
  else none

/-- Leftmost maximal `[\d.]+` run, i.e. `re.search(r"([\d.]+)", s)`. -/
def numRun : List Char → Option (List Char)
  | [] => none
  | c :: rest =>
      if digitOrDot c then some ((c :: rest).takeWhile digitOrDot)
      else numRun rest

/-- Group of the leftmost match of `\(([\d.]+)%\)` (the parenthesized
percentage extractor of the disk parser). -/
def parenRun : List Char → Option (List Char)
  | [] => none
  | c :: rest =>
      if c = '(' then
        let run := rest.takeWhile digitOrDot
        let after := rest.dropWhile digitOrDot
        if !run.isEmpty && startsWithL after ['%', ')'] then some run
        else parenRun rest
      else parenRun rest

/-- Value of the leftmost match of `(\d+)[- ]core` (the `Info` free-text
core-count miner of the CPU parser). -/
def minedCoreNat : List Char → Option Nat
  | [] => none
  | c :: rest =>
      if isDigitCh c then
        let ds := (c :: rest).takeWhile isDigitCh
        let after := (c :: rest).dropWhile isDigitCh
        match after with
        | sep :: tl =>
            if (sep = '-' || sep = ' ') && startsWithL tl ['c', 'o', 'r', 'e']
            then some (natOfDigits ds)
            else minedCoreNat rest
        | [] => minedCoreNat rest
      else minedCoreNat rest

/-- Value of the leftmost match of `(\d+(?:\.\d+)?)` (the battery charge
extractor); such a match always converts with `float`. -/
def leadFloatQ : List Char → Option ℚ
  | [] => none
  | c :: rest =>
      if isDigitCh c then
        let ip := (c :: rest).takeWhile isDigitCh
        let after := (c :: rest).dropWhile isDigitCh
        some (match after with
          | '.' :: tl =>
              let fp := tl.takeWhile isDigitCh
              if fp.isEmpty then (natOfDigits ip : ℚ)
              else (natOfDigits ip : ℚ) + (natOfDigits fp : ℚ) / (10 : ℚ) ^ fp.length
          | _ => (natOfDigits ip : ℚ))
      else leadFloatQ rest

/-- Python whitespace for `int(str)` stripping (ASCII subset). -/
def isSpaceCh (c : Char) : Bool :=
  c == ' ' || c == '\t' || c == '\n' || c == '\r'

/-- Digit group with optional single underscores between digits, as
accepted by Python `int()`. -/
def duOK : List Char → Bool
  | [] => false
  | [c] => isDigitCh c
  | c :: '_' :: rest₂ => isDigitCh c && duOK rest₂
  | c :: c₂ :: rest => isDigitCh c && duOK (c₂ :: rest)

/-- Python `int(s)` on a string: strip spaces, optional sign, digits. -/
def pyIntOfStr (s : String) : Option Int :=
  let t := ((s.data.dropWhile isSpaceCh).reverse.dropWhile isSpaceCh).reverse
  match t with
  | '+' :: rest =>
      if duOK rest then some ((natOfDigits (rest.filter (fun c => c ≠ '_')) : Int)) else none
  | '-' :: rest =>
      if duOK rest then some (-(natOfDigits (rest.filter (fun c => c ≠ '_')) : Int)) else none
  | _ => if duOK t then some ((natOfDigits (t.filter (fun c => c ≠ '_')) : Int)) else none

/-- Python `int(v)` as used with `except (ValueError, TypeError)`:
`none` models the caught exception. Floats truncate toward zero. -/
def pyInt : JValue → Option Int
  | .int n => some n
  | .bool b => some (if b then 1 else 0)
  | .num q => some (Int.tdiv q.num (q.den : Int))
  | .str s => pyIntOfStr s
  | _ => none

/-- Numeric view of a scalar for Python cross-type `==` and `<`. -/
def qOfNum : JValue → Option ℚ
  | .bool b => some (if b then 1 else 0)
  | .int n => some (n : ℚ)
  | .num q => some q
  | _ => none

/-- Python `==` on hashable scalars (numbers compare across types). -/
def jEqScalar (a b : JValue) : Bool :=
  match a, b with
  | .str s, .str t => s == t
  | .null, .null => true
  | _, _ =>
      match qOfNum a, qOfNum b with
      | some x, some y => x == y
      | _, _ => false

/-- Python `v == "lit"` for a dict value against a string literal. -/
def jEqStr (v : JValue) (s : String) : Bool :=
  match v with
  | .str t => t == s
  | _ => false

/-- Round half to even to an integer (Python `round` on exact values). -/
def rne (x : ℚ) : Int :=
  let f := ⌊x⌋
  let r := x - f
  if r < 1 / 2 then f
  else if 1 / 2 < r then f + 1
  else if Even f then f else f + 1

/-- Python `round(x, 1)`, idealized over exact rationals. -/
def round1 (x : ℚ) : ℚ := (rne (x * 10) : ℚ) / 10

/-- Python `s.split(c)` over characters (no collapsing of empty parts). -/
def splitOnCh (c : Char) : List Char → List (List Char)
  | [] => [[]]
  | x :: rest =>
      match splitOnCh c rest with
      | [] => [[]]
      | g :: gs => if x = c then [] :: g :: gs else (x :: g) :: gs

/-- Possible uncaught Python exceptions of the parser. -/
inductive PyErr where
  | attributeError
  | typeError
  | valueError
deriving Repr, DecidableEq

/-- Computations that may raise an uncaught Python exception. -/
abbrev P (α : Type) := Except PyErr α

/-- Python attribute access `.items()`/`.get(...)` on a value that must
be a dict (`AttributeError` otherwise). -/
def asDictE : JValue → P PyDict
  | .dict kvs => .ok kvs
  | _ => .error .attributeError

/-- Python `v.lower()` (`AttributeError` on non-strings). -/
def asStrLowerE : JValue → P String
  | .str s => .ok (lowerStr s)
  | _ => .error .attributeError

/-- Python `v.upper()` (`AttributeError` on non-strings). -/
def asStrUpperE : JValue → P String
  | .str s => .ok (upperStr s)
  | _ => .error .attributeError

/-- Python `for x in v:` (`TypeError` on non-iterables; strings iterate
as one-character strings, dicts as their keys). -/
def pyIterE : JValue → P (List JValue)
  | .list xs => .ok xs
  | .str s => .ok (s.data.map (fun c => .str (String.singleton c)))
  | .dict kvs => .ok (kvs.map (fun kv => JValue.str kv.1))
  | .idict kvs => .ok (kvs.map (fun kv => JValue.int (kv.1 : Int)))
  | _ => .error .typeError

/-- Strip the ordering metadata from every key of one raw item and drop
absent values — the `cleaned` dict each section parser builds. -/
def cleanItem (kvs : PyDict) : PyDict :=
  kvs.foldl
    (fun acc kv => if pyAbsent kv.2 then acc else dSet acc (cleanKey kv.1) kv.2) []

/-- Python str of a JValue (`pyShow true` is `repr`, for containers). -/
def quoteMark : String := String.singleton (Char.ofNat 39)

/-- Drop trailing zero digits. -/
def stripZeros (cs : List Char) : List Char :=
  (cs.reverse.dropWhile (fun c => c = '0')).reverse

/-- Decimal digits of a natural number. -/
def natDigits (n : Nat) : List Char := Nat.toDigits 10 n

/-- Left-pad a digit list with zeros to length `k`. -/
def padLeft (k : Nat) (ds : List Char) : List Char :=
  List.replicate (k - ds.length) '0' ++ ds

/-- Render `q` with `k` decimal digits (`q * 10^k` integral), dropping
trailing zeros as Python float repr does. -/
def renderDec (q : ℚ) (k : Nat) : String :=
  let sgn := if q < 0 then "-" else ""
  let n : Nat := q.num.natAbs * (10 ^ k / q.den)
  let ip := n / 10 ^ k
  let fp := stripZeros (padLeft k (natDigits (n % 10 ^ k)))
  sgn ++ (⟨natDigits ip⟩ : String) ++ "." ++ (if fp.isEmpty then "0" else (⟨fp⟩ : String))

/-- Python `str(float)` for floats idealized as rationals: decimal
notation when the denominator divides a power of ten (always the case
for JSON-born floats), a fraction fallback otherwise. -/
def renderRat (q : ℚ) : String :=
  match (List.range 40).find? (fun k => 10 ^ k % q.den = 0) with
  | some k => renderDec q k
  | none => toString q.num ++ "/" ++ toString q.den

mutual

/-- Python `str` (`repr` when the flag is set, as inside containers);
string escaping inside `repr` is not modelled. -/
def pyShow : Bool → JValue → String
  | _, .null => "None"
  | _, .bool b => if b then "True" else "False"
  | _, .int n => toString n
  | _, .num q => renderRat q
  | r, .str s => if r then quoteMark ++ s ++ quoteMark else s
  | _, .list xs => "[" ++ String.intercalate ", " (pyShowList xs) ++ "]"
  | _, .dict kvs => "\x7b" ++ String.intercalate ", " (pyShowDict kvs) ++ "\x7d"
  | _, .idict kvs => "\x7b" ++ String.intercalate ", " (pyShowIDict kvs) ++ "\x7d"

/-- Renders the elements of a list value. -/
def pyShowList : List JValue → List String
  | [] => []
  | v :: vs => pyShow true v :: pyShowList vs

/-- Renders the entries of a dict value. -/
def pyShowDict : List (String × JValue) → List String
  | [] => []
  | (k, v) :: kvs => (quoteMark ++ k ++ quoteMark ++ ": " ++ pyShow true v) :: pyShowDict kvs

/-- Renders the entries of an int-keyed dict value. -/
def pyShowIDict : List (Nat × JValue) → List String
  | [] => []
  | (k, v) :: kvs => (toString k ++ ": " ++ pyShow true v) :: pyShowIDict kvs

end

/-- Python `str(v)`. -/
def pyStr (v : JValue) : String := pyShow false v

/-!  Per-category parsers, translated from `InxiParser`.  -/

/-- Mutable state of `_parse_cpu_section`'s `result` dict. -/
structure CpuState where
  model : JValue := .str ""
  cores : Int := 0
  threads : Int := 0
  type : JValue := .str ""
  bits : JValue := .int 0
  arch : JValue := .str ""
  gen : JValue := .str ""
  built : JValue := .str ""
  process : JValue := .str ""
  family : JValue := .str ""
  modelId : JValue := .str ""
  stepping : JValue := .str ""
  microcode : JValue := .str ""
  cacheL1 : JValue := .str ""
  cacheL2 : JValue := .str ""
  cacheL3 : JValue := .str ""
  speedCurrent : JValue := .int 0
  speedMin : Int := 0
  speedMax : Int := 0
  bogomips : JValue := .int 0
  scalingDriver : JValue := .str ""
  scalingGovernor : JValue := .str ""
  coreSpeeds : List (Nat × JValue) := []
  flags : JValue := .str ""
  vulns : List PyDict := []

/-- Set a field of the CPU record when the cleaned item has the key. -/
def cpuPass (cleaned : PyDict) (k : String) (f : CpuState → JValue → CpuState)
    (st : CpuState) : CpuState :=
  match dGet cleaned k with
  | some v => f st v
  | none => st

/-- CPU parser: the direct passthrough and cache-size assignments. -/
def cpuUpdPass (cleaned : PyDict) (st : CpuState) : CpuState :=
  let st := cpuPass cleaned "model" (fun s v => { s with model := v }) st
  let st := cpuPass cleaned "type" (fun s v => { s with type := v }) st
  let st := cpuPass cleaned "bits" (fun s v => { s with bits := v }) st
  let st := cpuPass cleaned "arch" (fun s v => { s with arch := v }) st
  let st := cpuPass cleaned "gen" (fun s v => { s with gen := v }) st
  let st := cpuPass cleaned "built" (fun s v => { s with built := v }) st
  let st := cpuPass cleaned "process" (fun s v => { s with process := v }) st
  let st := cpuPass cleaned "family" (fun s v => { s with family := v }) st
  let st := cpuPass cleaned "model-id" (fun s v => { s with modelId := v }) st
  let st := cpuPass cleaned "stepping" (fun s v => { s with stepping := v }) st
  let st := cpuPass cleaned "microcode" (fun s v => { s with microcode := v }) st
  let st := cpuPass cleaned "L1" (fun s v => { s with cacheL1 := v }) st
  let st := cpuPass cleaned "L2" (fun s v => { s with cacheL2 := v }) st
  cpuPass cleaned "L3" (fun s v => { s with cacheL3 := v }) st

/-- CPU parser: the `Info` free-text core-count mining (keyword chain,
then the `N-core` regex overriding; a truthy non-string raises). -/
def cpuUpdInfo (cleaned : PyDict) (st : CpuState) : P CpuState :=
  match dGet cleaned "Info" with
  | some iv =>
      if pyTruthy iv then do
        let low ← asStrLowerE iv
        let st :=
          if pyIn "quad core" low then { st with cores := 4 }
          else if pyIn "octa core" low then { st with cores := 8 }
          else if pyIn "dual core" low then { st with cores := 2 }
          else if pyIn "hexa core" low then { st with cores := 6 }
          else st
        let st :=
          match minedCoreNat low.data with
          | some n => { st with cores := (n : Int) }
          | none => st
        pure st
      else pure st
  | none => pure st

/-- CPU parser: the reported-`cores` assignment (failed `int` caught). -/
def cpuUpdCores (cleaned : PyDict) (st : CpuState) : CpuState :=
  match dGet cleaned "cores" with
  | some v =>
      match pyInt v with
      | some n => { st with cores := n }
      | none => st
  | none => st

/-- CPU parser: the reported-`threads` assignment (failed `int` caught). -/
def cpuUpdThreads (cleaned : PyDict) (st : CpuState) : CpuState :=
  match dGet cleaned "threads" with
  | some v =>
      match pyInt v with
      | some n => { st with threads := n }
      | none => st
  | none => st

/-- CPU parser: collection of numeric-keyed per-thread speeds. -/
def cpuUpdSpeeds (cleaned : PyDict) (st : CpuState) : CpuState :=
  { st with
    coreSpeeds := cleaned.foldl
      (fun cs kv =>
        if pyIsDigit kv.1 then iSet cs (natOfDigits kv.1.data) kv.2 else cs)
      st.coreSpeeds }

/-- CPU parser: the `min/max` split assignment (`speed_min` keeps its
new value even when the second `int` conversion fails, as in the
source's try block). -/
def cpuUpdMinMax (cleaned : PyDict) (st : CpuState) : CpuState :=
  match dGet cleaned "min/max" with
  | some v =>
      let parts := splitOnCh '/' (pyStr v).data
      if parts.length = 2 then
        match pyIntOfStr ⟨parts.headI⟩ with
        | some a =>
            let st := { st with speedMin := a }
            match pyIntOfStr ⟨parts.getLastI⟩ with
            | some b => { st with speedMax := b }
            | none => st
        | none => st
      else st
  | none => st

/-- CPU parser: the flags assignment (`Flags` preferred over
`Flags-basic`). -/
def cpuUpdFlags (cleaned : PyDict) (st : CpuState) : CpuState :=
  if dMem cleaned "Flags" then { st with flags := dGetD cleaned "Flags" (.str "") }
  else if dMem cleaned "Flags-basic" then
    { st with flags := dGetD cleaned "Flags-basic" (.str "") }
  else st

/-- CPU parser: a `Type` key appends a vulnerability record. -/
def cpuUpdVulns (cleaned : PyDict) (st : CpuState) : CpuState :=
  match dGet cleaned "Type" with
  | some tv => { st with
      vulns := st.vulns ++
        [[("type", tv), ("status", dGetD cleaned "status" (.str "")),
          ("mitigation", dGetD cleaned "mitigation" (.str ""))]] }
  | none => st

/-- CPU parser: speed/flags/vulnerability assignments after the
topology fields, in the source's order. -/
def cpuUpdTail (cleaned : PyDict) (st : CpuState) : CpuState :=
  cpuUpdVulns cleaned (cpuUpdFlags cleaned
    (cpuPass cleaned "governor" (fun s v => { s with scalingGovernor := v })
      (cpuPass cleaned "driver" (fun s v => { s with scalingDriver := v })
        (cpuPass cleaned "bogomips" (fun s v => { s with bogomips := v })
          (cpuUpdMinMax cleaned
            (cpuPass cleaned "avg" (fun s v => { s with speedCurrent := v }) st))))))

/-- Body of the CPU parser's per-item loop, in the source's order. -/
def cpuStep (st : CpuState) (item : JValue) : P CpuState := do
  let kvs ← asDictE item
  let cleaned := cleanItem kvs
  let st := cpuUpdPass cleaned st
  let st ← cpuUpdInfo cleaned st
  let st := cpuUpdThreads cleaned (cpuUpdCores cleaned st)
  pure (cpuUpdTail cleaned (cpuUpdSpeeds cleaned st))

/-- Post-loop thread/core fallbacks of the CPU parser. -/
def cpuFinal (st : CpuState) : CpuState :=
  let st :=
    if st.threads = 0 then { st with threads := (st.coreSpeeds.length : Int) } else st
  if st.threads > 0 ∧ st.cores = 0 then
    { st with
      cores := if Int.fdiv st.threads 2 = 0 then st.threads else Int.fdiv st.threads 2 }
  else st

/-- The CPU record as a dict, in the source's key order. -/
def renderCpu (st : CpuState) : PyDict :=
  [("model", st.model), ("cores", .int st.cores), ("threads", .int st.threads),
   ("type", st.type), ("bits", st.bits), ("arch", st.arch), ("gen", st.gen),
   ("built", st.built), ("process", st.process), ("family", st.family),
   ("model_id", st.modelId), ("stepping", st.stepping), ("microcode", st.microcode),
   ("cache_l1", st.cacheL1), ("cache_l2", st.cacheL2), ("cache_l3", st.cacheL3),
   ("speed_current", st.speedCurrent), ("speed_min", .int st.speedMin),
   ("speed_max", .int st.speedMax), ("bogomips", st.bogomips),
   ("scaling_driver", st.scalingDriver), ("scaling_governor", st.scalingGovernor),
   ("core_speeds", .idict st.coreSpeeds), ("flags", st.flags),
   ("vulnerabilities", .list (st.vulns.map JValue.dict)), ("raw", .str "")]

/-- `InxiParser._parse_cpu_section`. -/
def parseCpuSection (v : JValue) : P PyDict := do
  let items ← pyIterE v
  let st ← items.foldlM cpuStep {}
  pure (renderCpu (cpuFinal st))

/-- Webcam keyword table of the GPU parser. -/
def webcamKeywords : List String :=
  ["webcam", "camera", "cam", "usb2.0", "hd pro", "facetime", "isight", "brio",
   "c920", "c922", "c925", "streamcam", "kiyo", "uvc", "integrated_webcam"]

/-- GPU keyword table of the GPU parser. -/
def gpuKeywords : List String :=
  ["vga", "nvidia", "amd", "radeon", "geforce", "intel hd", "intel uhd",
   "intel iris", "matrox", "quadro", "firepro", "arc ", "display", "graphics",
   "gpu", "rtx", "gtx"]

/-- GPU driver-name table of the GPU parser. -/
def gpuDriverKeywords : List String :=
  ["nvidia", "amdgpu", "radeon", "i915", "nouveau"]

/-- `is_webcam` of the GPU parser (arguments already lower-cased). -/
def isWebcamItem (deviceName driver : String) : Bool :=
  webcamKeywords.any (fun kw => pyIn kw deviceName) || pyIn "uvcvideo" driver

/-- `is_gpu` of the GPU parser (arguments already lower-cased). -/
def isGpuItem (deviceName driver : String) : Bool :=
  gpuKeywords.any (fun kw => pyIn kw deviceName) ||
    gpuDriverKeywords.any (fun kw => pyIn kw driver)

/-- Webcam record built from one cleaned GPU-section item. -/
def mkWebcam (cleaned : PyDict) : PyDict :=
  [("name", dGetD cleaned "Device" (.str "")),
   ("driver", dGetD cleaned "driver" (.str "")),
   ("type", dGetD cleaned "type" (.str "USB")),
   ("bus_id", dGetD cleaned "bus-ID" (.str "")),
   ("chip_id", dGetD cleaned "chip-ID" (.str "")),
   ("serial", dGetD cleaned "serial" (.str "")),
   ("speed", dGetD cleaned "speed" (.str "")),
   ("mode", dGetD cleaned "mode" (.str ""))]

/-- GPU device record built from one cleaned GPU-section item. -/
def mkGpuDevice (cleaned : PyDict) : PyDict :=
  [("name", dGetD cleaned "Device" (.str "")),
   ("vendor", dGetD cleaned "vendor" (.str "")),
   ("driver", dGetD cleaned "driver" (.str "")),
   ("driver_version", dGetD cleaned "v" (.str "")),
   ("bus_id", dGetD cleaned "bus-ID" (.str "")),
   ("arch", dGetD cleaned "arch" (.str "")),
   ("chip_id", dGetD cleaned "chip-ID" (.str "")),
   ("ports_active", dGetD cleaned "active" (.str "")),
   ("ports_empty", dGetD cleaned "empty" (.str ""))]

/-- Mutable state of `_parse_gpu_section`'s `result` dict. -/
structure GpuState where
  devices : List PyDict := []
  webcams : List PyDict := []
  displayInfo : JValue := .dict []
  opengl : JValue := .dict []
  vulkan : JValue := .dict []
  egl : JValue := .dict []
  monitors : List PyDict := []

/-- Body of the GPU parser's per-item loop. -/
def gpuStep (st : GpuState) (item : JValue) : P GpuState := do
  let kvs ← asDictE item
  let cleaned := cleanItem kvs
  if dMem cleaned "Device" then do
    let deviceName ← asStrLowerE (dGetD cleaned "Device" (.str ""))
    let driver ← asStrLowerE (dGetD cleaned "driver" (.str ""))
    let isW := isWebcamItem deviceName driver
    let isG := isGpuItem deviceName driver
    if isW && !isG then
      pure { st with webcams := st.webcams ++ [mkWebcam cleaned] }
    else if !isW || isG then
      pure { st with devices := st.devices ++ [mkGpuDevice cleaned] }
    else
      pure st
  else if dMem cleaned "Display" || dMem cleaned "server" then
    pure { st with displayInfo := JValue.dict (
      [("display", dGetD cleaned "Display" (.str "")),
       ("server", dGetD cleaned "server" (.str "")),
       ("server_version", dGetD cleaned "v" (.str "")),
       ("with", dGetD cleaned "with" (.str "")),
       ("compositor", dGetD cleaned "compositor" (.str "")),
       ("driver_loaded", dGetD cleaned "loaded" (.str "")),
       ("gpu", dGetD cleaned "gpu" (.str ""))]) }
  else if dMem cleaned "Monitor" then
    pure { st with monitors := st.monitors ++
      [[("name", dGetD cleaned "Monitor" (.str "")),
        ("model", dGetD cleaned "model" (.str "")),
        ("resolution", dGetD cleaned "res" (.str "")),
        ("size", dGetD cleaned "size" (.str "")),
        ("diagonal", dGetD cleaned "diag" (.str "")),
        ("dpi", dGetD cleaned "dpi" (.str "")),
        ("gamma", dGetD cleaned "gamma" (.str "")),
        ("ratio", dGetD cleaned "ratio" (.str ""))]] }
  else if dMem cleaned "API" && jEqStr (dGetD cleaned "API" .null) "OpenGL" then
    pure { st with opengl := JValue.dict (
      [("version", dGetD cleaned "v" (.str "")),
       ("compat_version", dGetD cleaned "compat-v" (.str "")),
       ("vendor", dGetD cleaned "vendor" (.str "")),
       ("glx_version", dGetD cleaned "glx-v" (.str "")),
       ("direct_render", dGetD cleaned "direct-render" (.str "")),
       ("renderer", dGetD cleaned "renderer" (.str "")),
       ("memory", dGetD cleaned "memory" (.str ""))]) }
  else if dMem cleaned "API" && jEqStr (dGetD cleaned "API" .null) "Vulkan" then
    pure { st with vulkan := JValue.dict (
      [("version", dGetD cleaned "v" (.str "")),
       ("layers", dGetD cleaned "layers" (.str "")),
       ("devices", .list
         (if dMem cleaned "device" then
            [JValue.dict
              [("device", dGetD cleaned "device" (.str "")),
               ("type", dGetD cleaned "type" (.str "")),
               ("name", dGetD cleaned "name" (.str "")),
               ("driver", dGetD cleaned "driver" (.str ""))]]
          else []))]) }
  else if dMem cleaned "API" && jEqStr (dGetD cleaned "API" .null) "EGL" then
    pure { st with egl := JValue.dict (
      [("version", dGetD cleaned "v" (.str "")),
       ("hw", dGetD cleaned "hw" (.str "")),
       ("platforms", dGetD cleaned "platforms" (.str ""))]) }
  else
    pure st

/-- The GPU record as a dict, in the source's key order. -/
def renderGpu (st : GpuState) : PyDict :=
  [("devices", .list (st.devices.map JValue.dict)),
   ("webcams", .list (st.webcams.map JValue.dict)),
   ("displays", .list []),
   ("display_info", st.displayInfo),
   ("opengl", st.opengl),
   ("vulkan", st.vulkan),
   ("egl", st.egl),
   ("monitors", .list (st.monitors.map JValue.dict))]

/-- `InxiParser._parse_gpu_section`. -/
def parseGpuSection (v : JValue) : P PyDict := do
  let items ← pyIterE v
  let st ← items.foldlM gpuStep {}
  pure (renderGpu st)

/-- Mutable state of `_parse_memory_section`'s `result` dict. -/
structure MemState where
  total : String := ""
  used : String := ""
  available : String := ""
  capacity : String := ""
  slots : String := ""
  ec : String := ""
  note : String := ""
  maxModuleSize : String := ""
  modulesCount : Option String := none
  modules : List PyDict := []

/-- RAM module record built from one cleaned Memory-section item. -/
def mkModule (cleaned : PyDict) : PyDict :=
  [("size", .str (pyStr (dGetD cleaned "size" (.str "")))),
   ("speed", .str (pyStr (dGetD cleaned "spec" (dGetD cleaned "speed" (.str ""))))),
   ("actual_speed",
      .str (pyStr (dGetD cleaned "actual" (dGetD cleaned "configured" (.str ""))))),
   ("type", .str (pyStr (dGetD cleaned "type" (.str "")))),
   ("slot", .str (pyStr (dGetD cleaned "Device" (.str "")))),
   ("manufacturer", .str (pyStr (dGetD cleaned "manufacturer" (.str "")))),
   ("volts", .str (pyStr (dGetD cleaned "volts" (.str "")))),
   ("part_no", .str (pyStr (dGetD cleaned "part-no" (.str "")))),
   ("serial", .str (pyStr (dGetD cleaned "serial" (.str ""))))]

/-- Memory parser: the system-RAM `total` assignment (summary items
have `total` but no `Device`; only GiB/GB texts are kept; first wins). -/
def memUpdTotal (cleaned : PyDict) (st : MemState) : MemState :=
  if dMem cleaned "total" && !dMem cleaned "Device" then
    let ts := pyStr (dGetD cleaned "total" (.str ""))
    if pyIn "GiB" ts || pyIn "GB" ts then
      if st.total = "" then { st with total := ts } else st
    else st
  else st

/-- Memory parser: the `used` assignment (first wins). -/
def memUpdUsed (cleaned : PyDict) (st : MemState) : MemState :=
  match dGet cleaned "used" with
  | some uv => if st.used = "" then { st with used := pyStr uv } else st
  | none => st

/-- Memory parser: the `available` assignment (first wins). -/
def memUpdAvailable (cleaned : PyDict) (st : MemState) : MemState :=
  match dGet cleaned "available" with
  | some av => if st.available = "" then { st with available := pyStr av } else st
  | none => st

/-- Memory parser: the unconditional extra-info assignments. -/
def memUpdExtra (cleaned : PyDict) (st : MemState) : MemState :=
  let st :=
    match dGet cleaned "capacity" with
    | some v => { st with capacity := pyStr v }
    | none => st
  let st :=
    match dGet cleaned "slots" with
    | some v => { st with slots := pyStr v }
    | none => st
  let st :=
    match dGet cleaned "EC" with
    | some v => { st with ec := pyStr v }
    | none => st
  let st :=
    match dGet cleaned "note" with
    | some v => { st with note := pyStr v }
    | none => st
  let st :=
    match dGet cleaned "max-module-size" with
    | some v => { st with maxModuleSize := pyStr v }
    | none => st
  match dGet cleaned "modules" with
  | some v => { st with modulesCount := some (pyStr v) }
  | none => st

/-- Memory parser: the per-module collection (`Device` and a truthy
`size` not reporting "No Module"). -/
def memUpdModules (cleaned : PyDict) (st : MemState) : MemState :=
  if dMem cleaned "Device" && dMem cleaned "size" then
    let size := dGetD cleaned "size" (.str "")
    if pyTruthy size && !pyIn "No Module" (pyStr size) then
      { st with modules := st.modules ++ [mkModule cleaned] }
    else st
  else st

/-- Body of the Memory parser's per-item loop. -/
def memStep (st : MemState) (item : JValue) : P MemState := do
  let kvs ← asDictE item
  let cleaned := cleanItem kvs
  pure (memUpdModules cleaned (memUpdExtra cleaned
    (memUpdAvailable cleaned (memUpdUsed cleaned (memUpdTotal cleaned st)))))

/-- Post-loop `used_percent` computation of the Memory parser: regex
extraction from the `total`/`used` texts, failures swallowed. -/
def memUsedPercent (st : MemState) : JValue :=
  if st.total ≠ "" ∧ st.used ≠ "" then
    match numRun st.total.data, numRun st.used.data with
    | some tr, some ur =>
        match floatOfRun tr, floatOfRun ur with
        | some tv, some uv =>
            if 0 < tv then .num (round1 (uv / tv * 100)) else .int 0
        | _, _ => .int 0
    | _, _ => .int 0
  else .int 0

/-- The Memory record as a dict, in the source's key order
(`modules_count` is appended when first assigned). -/
def renderMem (st : MemState) : PyDict :=
  [("total", .str st.total), ("used", .str st.used),
   ("available", .str st.available), ("used_percent", memUsedPercent st),
   ("capacity", .str st.capacity), ("slots", .str st.slots),
   ("ec", .str st.ec), ("note", .str st.note),
   ("max_module_size", .str st.maxModuleSize),
   ("modules", .list (st.modules.map JValue.dict))] ++
  (match st.modulesCount with
   | some c => [("modules_count", JValue.str c)]
   | none => [])

/-- `InxiParser._parse_memory_section`. -/
def parseMemorySection (v : JValue) : P PyDict := do
  let items ← pyIterE v
  let st ← items.foldlM memStep {}
  pure (renderMem st)

/-- Body of the Audio parser's per-item loop. -/
def audioStep (st : List PyDict) (item : JValue) : P (List PyDict) := do
  let kvs ← asDictE item
  let cleaned := cleanItem kvs
  if dMem cleaned "Device" then do
    let deviceType ← asStrUpperE (dGetD cleaned "type" (.str ""))
    let isUsb := deviceType == "USB"
    let base : PyDict :=
      [("name", dGetD cleaned "Device" (.str "")),
       ("vendor", dGetD cleaned "vendor" (.str "")),
       ("driver", dGetD cleaned "driver" (.str "")),
       ("bus_id", dGetD cleaned "bus-ID" (.str "")),
       ("chip_id", dGetD cleaned "chip-ID" (.str "")),
       ("class_id", dGetD cleaned "class-ID" (.str "")),
       ("type", .str (if deviceType ≠ "" then deviceType else "PCI")),
       ("serial", dGetD cleaned "serial" (.str ""))]
    let dev :=
      if isUsb then
        base ++ [("usb_speed", dGetD cleaned "speed" (.str "")),
                 ("usb_rev", dGetD cleaned "rev" (.str ""))]
      else
        base ++ [("pcie_gen", dGetD cleaned "gen" (.str "")),
                 ("pcie_speed", dGetD cleaned "speed" (.str "")),
                 ("pcie_lanes", dGetD cleaned "lanes" (.str ""))]
    pure (st ++ [dev])
  else
    pure st

/-- `InxiParser._parse_audio_section`. -/
def parseAudioSection (v : JValue) : P PyDict := do
  let items ← pyIterE v
  let st ← items.foldlM audioStep []
  pure [("devices", .list (st.map JValue.dict))]

/-- Outcome of `_get_network_routing_info` (live `ip route`/DNS queries,
external collaborators; the function itself swallows every failure). -/
structure RoutingInfo where
  gateway : String := ""
  dnsServers : List String := []
  gatewayInterface : String := ""

/-- Already-decoded outcomes of the external commands the enrichment
sub-collectors run; the parse is a pure function of the document and
this environment. -/
structure Env where
  ipMap : List (String × String × String) := []
  routing : RoutingInfo := {}
  extraSystem : List (String × String) := []
  sensorsCmd : Option String := none

/-- Virtual-interface keyword table of the network parser. -/
def virtualKeywords : List String :=
  ["veth", "docker", "virbr", "br-", "vbox", "vmnet"]

/-- Mutable state of `_parse_network_section`'s loop. -/
structure NetState where
  devices : List PyDict := []
  virtualDevices : List PyDict := []
  current : Option PyDict := none

/-- Body of the network parser's per-item loop. -/
def netStep (st : NetState) (item : JValue) : P NetState := do
  let kvs ← asDictE item
  let cleaned := cleanItem kvs
  if dMem cleaned "Device" then do
    let st :=
      match st.current with
      | some cd => { st with devices := st.devices ++ [cd], current := none }
      | none => st
    let deviceType ← asStrUpperE (dGetD cleaned "type" (.str ""))
    let isUsb := deviceType == "USB"
    let base : PyDict :=
      [("name", dGetD cleaned "Device" (.str "")),
       ("vendor", dGetD cleaned "vendor" (.str "")),
       ("driver", dGetD cleaned "driver" (.str "")),
       ("bus_id", dGetD cleaned "bus-ID" (.str "")),
       ("chip_id", dGetD cleaned "chip-ID" (.str "")),
       ("class_id", dGetD cleaned "class-ID" (.str "")),
       ("port", dGetD cleaned "port" (.str "")),
       ("mac", dGetD cleaned "mac" (.str "")),
       ("type", .str (if deviceType ≠ "" then deviceType else "PCI"))]
    let dev :=
      if isUsb then
        base ++ [("usb_speed", dGetD cleaned "speed" (.str "")),
                 ("usb_rev", dGetD cleaned "rev" (.str ""))]
      else
        base ++ [("pcie_gen", dGetD cleaned "gen" (.str "")),
                 ("pcie_speed", dGetD cleaned "speed" (.str "")),
                 ("pcie_lanes", dGetD cleaned "lanes" (.str ""))]
    pure { st with current := some dev }
  else if dMem cleaned "IF" || dMem cleaned "IF-ID" then do
    let ifNameV := dGetD cleaned "IF" (dGetD cleaned "IF-ID" (.str ""))
    let info : PyDict :=
      [("IF", ifNameV),
       ("state", dGetD cleaned "state" (.str "")),
       ("mac", dGetD cleaned "mac" (.str "")),
       ("speed", dGetD cleaned "speed" (.str "")),
       ("duplex", dGetD cleaned "duplex" (.str "")),
       ("ip", dGetD cleaned "ip" (.str "")),
       ("ipv6", dGetD cleaned "ipv6" (.str ""))]
    let low ← asStrLowerE ifNameV
    let isVirtual := virtualKeywords.any (fun kw => pyIn kw low)
    match st.current with
    | some cd =>
        pure { st with devices := st.devices ++ [dUpdate cd info], current := none }
    | none =>
        if isVirtual then
          pure { st with virtualDevices := st.virtualDevices ++ [dSet info "name" ifNameV] }
        else
          pure { st with devices := st.devices ++ [dSet info "name" ifNameV] }
  else
    pure st

/-- `_add_ip_addresses`: merge live per-interface addresses onto the
devices when their own `ip`/`ipv6` is still falsy. -/
def addIpAddresses (env : Env) (devices : List PyDict) : List PyDict :=
  devices.map (fun dev =>
    match dGetD dev "IF" (dGetD dev "name" (.str "")) with
    | .str s =>
        if s ≠ "" then
          match env.ipMap.find? (fun e => e.1 == s) with
          | some e =>
              let dev :=
                if !pyTruthy (dGetD dev "ip" .null) then dSet dev "ip" (.str e.2.1)
                else dev
              if !pyTruthy (dGetD dev "ipv6" .null) then dSet dev "ipv6" (.str e.2.2)
              else dev
          | none => dev
        else dev
    | _ => dev)

/-- The dict `_get_network_routing_info` returns, from the environment. -/
def routingDict (env : Env) : PyDict :=
  [("gateway", .str env.routing.gateway),
   ("dns_servers", .list (env.routing.dnsServers.map JValue.str)),
   ("gateway_interface", .str env.routing.gatewayInterface)]

/-- `InxiParser._parse_network_section`. -/
def parseNetworkSection (env : Env) (v : JValue) : P PyDict := do
  let items ← pyIterE v
  let st ← items.foldlM netStep {}
  let devices :=
    match st.current with
    | some cd => st.devices ++ [cd]
    | none => st.devices
  let devices := addIpAddresses env devices
  let virtuals := addIpAddresses env st.virtualDevices
  let base : PyDict :=
    [("devices", .list (devices.map JValue.dict)),
     ("virtual_devices", .list (virtuals.map JValue.dict))]
  pure (dUpdate base (routingDict env))

/-- Parenthesized `used_percent` extraction of the disk parser; the
`float` conversion of a digitless group is an uncaught `ValueError`. -/
def parenPercentE (s : String) : P JValue :=
  match parenRun s.data with
  | some run =>
      match floatOfRun run with
      | some q => .ok (.num q)
      | none => .error .valueError
  | none => .ok (.int 0)

/-- Mutable state of the Drives-items loop of the disk parser. -/
structure DiskState where
  drives : List PyDict := []
  totalSize : String := ""
  used : String := ""
  usedPercent : JValue := .int 0

/-- Drive record built from one cleaned Drives-section item. -/
def mkDrive (cleaned : PyDict) (driveType : String) : PyDict :=
  [("id", dGetD cleaned "ID" (.str "")),
   ("model", dGetD cleaned "model" (.str "")),
   ("size", .str (pyStr (dGetD cleaned "size" (.str "")))),
   ("vendor", dGetD cleaned "vendor" (.str "")),
   ("type", .str driveType),
   ("serial", dGetD cleaned "serial" (.str "")),
   ("temp", dGetD cleaned "temp" (.str "")),
   ("speed", dGetD cleaned "speed" (.str "")),
   ("lanes", dGetD cleaned "lanes" (.str "")),
   ("firmware", dGetD cleaned "fw-rev" (.str "")),
   ("scheme", dGetD cleaned "scheme" (.str "")),
   ("block_physical", dGetD cleaned "physical" (.str "")),
   ("block_logical", dGetD cleaned "logical" (.str "")),
   ("maj_min", dGetD cleaned "maj-min" (.str ""))]

/-- Body of the disk parser's Drives-items loop. -/
def diskDriveStep (st : DiskState) (item : JValue) : P DiskState := do
  let kvs ← asDictE item
  let cleaned := cleanItem kvs
  if dMem cleaned "Local Storage" || dMem cleaned "total" then do
    let usedStr := pyStr (dGetD cleaned "used" (.str ""))
    let st := { st with
      totalSize := pyStr (dGetD cleaned "total" (.str "")), used := usedStr }
    match parenRun usedStr.data with
    | some run =>
        match floatOfRun run with
        | some q => pure { st with usedPercent := .num q }
        | none => .error .valueError
    | none => pure st
  else if dMem cleaned "model" && dMem cleaned "size" then
    let tech := upperStr (pyStr (dGetD cleaned "tech" (.str "")))
    let driveType :=
      if pyIn "SSD" tech then "SSD"
      else if pyIn "NVME" tech then "NVMe"
      else "HDD"
    let driveType :=
      if pyIn "nvme" (lowerStr (pyStr (dGetD cleaned "ID" (.str "")))) then "NVMe"
      else driveType
    pure { st with drives := st.drives ++ [mkDrive cleaned driveType] }
  else
    pure st

/-- Mutable state of the disk parser's sibling-section scan. -/
structure DiskState2 where
  partitions : List PyDict := []
  swap : List PyDict := []
  swapKernel : Option PyDict := none

/-- Partition record built from one cleaned Partition-section item. -/
def mkPartition (cleaned : PyDict) (usedStr : String) (usedPercent : JValue) : PyDict :=
  [("id", dGetD cleaned "ID" (.str "")),
   ("raw_size", .str (pyStr (dGetD cleaned "raw-size" (.str "")))),
   ("size", .str (pyStr (dGetD cleaned "size" (.str "")))),
   ("used", .str usedStr),
   ("used_percent", usedPercent),
   ("fs", dGetD cleaned "fs" (.str "")),
   ("dev", dGetD cleaned "dev" (.str "")),
   ("label", dGetD cleaned "label" (.str "")),
   ("mount", dGetD cleaned "mount" (dGetD cleaned "mountpoint" (.str "")))]

/-- Body of the disk parser's Partition-items loop. -/
def partItemStep (st : DiskState2) (item : JValue) : P DiskState2 := do
  let kvs ← asDictE item
  let cleaned := cleanItem kvs
  if dMem cleaned "ID" then do
    let usedStr := pyStr (dGetD cleaned "used" (.str ""))
    let up ← parenPercentE usedStr
    pure { st with partitions := st.partitions ++ [mkPartition cleaned usedStr up] }
  else
    pure st

/-- Swap record built from one cleaned Swap-section item. -/
def mkSwap (cleaned : PyDict) (usedStr : String) (usedPercent : JValue) : PyDict :=
  [("id", dGetD cleaned "ID" (.str "")),
   ("type", dGetD cleaned "type" (.str "")),
   ("size", .str (pyStr (dGetD cleaned "size" (.str "")))),
   ("used", .str usedStr),
   ("used_percent", usedPercent),
   ("priority", dGetD cleaned "priority" (.str "")),
   ("comp", dGetD cleaned "comp" (.str "")),
   ("dev", dGetD cleaned "dev" (dGetD cleaned "file" (.str "")))]

/-- Body of the disk parser's Swap-items loop. -/
def swapItemStep (st : DiskState2) (item : JValue) : P DiskState2 := do
  let kvs ← asDictE item
  let cleaned := cleanItem kvs
  if dMem cleaned "Kernel" || dMem cleaned "swappiness" then
    pure { st with swapKernel := some (
      [("swappiness", dGetD cleaned "swappiness" (.str "")),
       ("cache_pressure", dGetD cleaned "cache-pressure" (.str "")),
       ("zswap", dGetD cleaned "zswap" (.str "")),
       ("compressor", dGetD cleaned "compressor" (.str ""))]) }
  else if dMem cleaned "ID" || dMem cleaned "type" then do
    let usedStr := pyStr (dGetD cleaned "used" (.str ""))
    let up ← parenPercentE usedStr
    pure { st with swap := st.swap ++ [mkSwap cleaned usedStr up] }
  else
    pure st

/-- The disk parser's scan of one top-level section of the full raw
document, looking for Partition/Swap sections. -/
def diskSectionsStep (st : DiskState2) (sec : JValue) : P DiskState2 := do
  let kvs ← asDictE sec
  kvs.foldlM
    (fun st kv => do
      let name := cleanKey kv.1
      if pyIn "Partition" name then
        match kv.2 with
        | .list its => its.foldlM partItemStep st
        | _ => pure st
      else if pyIn "Swap" name then
        match kv.2 with
        | .list its => its.foldlM swapItemStep st
        | _ => pure st
      else pure st)
    st

/-- `InxiParser._parse_disk_section` (also receives the full raw
document for its sibling Partition/Swap scan). -/
def parseDiskSection (v : JValue) (fullData : List JValue) : P PyDict := do
  let items ← pyIterE v
  let st ← items.foldlM diskDriveStep {}
  let st₂ ← fullData.foldlM diskSectionsStep ({} : DiskState2)
  pure
    ([("drives", .list (st.drives.map JValue.dict)),
      ("partitions", .list (st₂.partitions.map JValue.dict)),
      ("swap", .list (st₂.swap.map JValue.dict)),
      ("total_size", .str st.totalSize),
      ("used", .str st.used),
      ("used_percent", st.usedPercent)] ++
     (match st₂.swapKernel with
      | some k => [("swap_kernel", JValue.dict k)]
      | none => []))

/-- Mutable state of `_parse_system_section`'s `result` dict. -/
structure SysState where
  host : JValue := .str ""
  kernel : JValue := .str ""
  kernelArch : JValue := .str ""
  kernelBits : JValue := .str ""
  compiler : JValue := .str ""
  desktop : JValue := .str ""
  desktopVersion : JValue := .str ""
  wm : JValue := .str ""
  dm : JValue := .str ""
  tk : JValue := .str ""
  distro : JValue := .str ""
  init : JValue := .str ""

/-- Body of the system parser's per-item loop. -/
def sysStep (st : SysState) (item : JValue) : P SysState := do
  let kvs ← asDictE item
  let cleaned := cleanItem kvs
  let st := match dGet cleaned "Host" with
    | some v => { st with host := v }
    | none => st
  let st := match dGet cleaned "Kernel" with
    | some v => { st with kernel := v }
    | none => st
  let st := match dGet cleaned "arch" with
    | some v => { st with kernelArch := v }
    | none => st
  let st := match dGet cleaned "bits" with
    | some v => { st with kernelBits := .str (pyStr v) }
    | none => st
  let st := match dGet cleaned "compiler" with
    | some v => { st with compiler := v }
    | none => st
  let st := match dGet cleaned "Desktop" with
    | some v =>
        let st := { st with desktop := v }
        match dGet cleaned "v" with
        | some vv => { st with desktopVersion := vv }
        | none => st
    | none => st
  let st := match dGet cleaned "wm" with
    | some v => { st with wm := v }
    | none => st
  let st := match dGet cleaned "dm" with
    | some v => { st with dm := v }
    | none => st
  let st := match dGet cleaned "tk" with
    | some v => { st with tk := v }
    | none => st
  let st := match dGet cleaned "Distro" with
    | some v => { st with distro := v }
    | none => st
  let st := match dGet cleaned "Init" with
    | some v => { st with init := v }
    | none => st
  pure st

/-- `InxiParser._parse_system_section` (the trailing
`_collect_extra_system_info` merge comes from the environment). -/
def parseSystemSection (env : Env) (v : JValue) : P PyDict := do
  let items ← pyIterE v
  let st ← items.foldlM sysStep {}
  let base : PyDict :=
    [("host", st.host), ("kernel", st.kernel), ("kernel_arch", st.kernelArch),
     ("kernel_bits", st.kernelBits), ("compiler", st.compiler),
     ("compiler_version", .str ""), ("desktop", st.desktop),
     ("desktop_version", st.desktopVersion), ("wm", st.wm), ("dm", st.dm),
     ("tk", st.tk), ("distro", st.distro), ("init", st.init)]
  pure (dUpdate base (env.extraSystem.map (fun kv => (kv.1, JValue.str kv.2))))

/-- Mutable state of `_parse_machine_section`'s `result` dict. -/
structure MachState where
  type : JValue := .str ""
  system : JValue := .str ""
  product : JValue := .str ""
  mobo : JValue := .str ""
  moboModel : JValue := .str ""
  moboVersion : JValue := .str ""
  firmwareType : JValue := .str ""
  firmwareVendor : JValue := .str ""
  firmwareVersion : JValue := .str ""
  firmwareDate : JValue := .str ""

/-- One sorted-key visit of the machine parser, with its
`found_mobo`/`found_firmware`/`mobo_v_set` context flags. -/
def machKeyStep (kvs : PyDict) (acc : MachState × Bool × Bool × Bool)
    (key : String) : MachState × Bool × Bool × Bool :=
  let (st, fm, ff, mvs) := acc
  match dGet kvs key with
  | none => acc
  | some value =>
    if pyAbsent value then acc
    else
      let ck := cleanKey key
      if ck = "Type" then ({ st with type := value }, fm, ff, mvs)
      else if ck = "System" then ({ st with system := value }, fm, ff, mvs)
      else if ck = "product" then ({ st with product := value }, fm, ff, mvs)
      else if ck = "Mobo" then ({ st with mobo := value }, true, ff, mvs)
      else if ck = "model" ∧ fm then ({ st with moboModel := value }, fm, ff, mvs)
      else if ck = "v" ∧ fm ∧ ¬ff ∧ ¬mvs then
        ({ st with moboVersion := value }, fm, ff, true)
      else if ck = "Firmware" then ({ st with firmwareType := value }, fm, true, mvs)
      else if ck = "vendor" ∧ ff then ({ st with firmwareVendor := value }, fm, ff, mvs)
      else if ck = "v" ∧ ff then ({ st with firmwareVersion := value }, fm, ff, mvs)
      else if ck = "date" then ({ st with firmwareDate := value }, fm, ff, mvs)
      else acc

/-- Body of the machine parser's per-item loop (keys visited in sorted
order, context flags reset per item). -/
def machStep (st : MachState) (item : JValue) : P MachState := do
  let kvs ← asDictE item
  let sortedKeys := (kvs.map Prod.fst).insertionSort (fun a b => a ≤ b)
  pure (sortedKeys.foldl (machKeyStep kvs) (st, false, false, false)).1

/-- `InxiParser._parse_machine_section`. -/
def parseMachineSection (v : JValue) : P PyDict := do
  let items ← pyIterE v
  let st ← items.foldlM machStep {}
  pure
    [("type", st.type), ("system", st.system), ("product", st.product),
     ("mobo", st.mobo), ("mobo_model", st.moboModel),
     ("mobo_version", st.moboVersion), ("firmware_type", st.firmwareType),
     ("firmware_vendor", st.firmwareVendor),
     ("firmware_version", st.firmwareVersion),
     ("firmware_date", st.firmwareDate)]

/-- Battery record built from one cleaned Battery-section item. -/
def mkBattery (cleaned : PyDict) : PyDict :=
  let charge : JValue :=
    match dGet cleaned "charge" with
    | some cv =>
        match leadFloatQ (pyStr cv).data with
        | some q => .num q
        | none => .int 0
    | none => .int 0
  let volts : String :=
    match dGet cleaned "volts" with
    | some vv =>
        match vv with
        | .int _ => pyStr vv ++ " V"
        | .num _ => pyStr vv ++ " V"
        | .bool _ => pyStr vv ++ " V"
        | _ => pyStr vv
    | none => ""
  [("id", dGetD cleaned "ID" (.str "")),
   ("charge", charge),
   ("condition", dGetD cleaned "condition" (.str "")),
   ("volts", .str volts),
   ("volts_min", dGetD cleaned "min" (.str "")),
   ("model", dGetD cleaned "model" (.str "")),
   ("type", dGetD cleaned "type" (.str "")),
   ("serial", dGetD cleaned "serial" (.str "")),
   ("charging", dGetD cleaned "charging" (.str "")),
   ("status", dGetD cleaned "status" (.str "")),
   ("cycles", dGetD cleaned "cycles" (.str ""))]

/-- Body of the battery parser's per-item loop. -/
def batStep (st : Bool × List PyDict) (item : JValue) : P (Bool × List PyDict) := do
  let kvs ← asDictE item
  let cleaned := cleanItem kvs
  if dMem cleaned "ID" || dMem cleaned "charge" then
    pure (true, st.2 ++ [mkBattery cleaned])
  else
    pure st

/-- `InxiParser._parse_battery_section` (with the backwards-compatible
flattened view of the first battery). -/
def parseBatterySection (v : JValue) : P PyDict := do
  let items ← pyIterE v
  let st ← items.foldlM batStep (false, [])
  let compat : PyDict :=
    match st.2 with
    | first :: _ =>
        [("charge", dGetD first "charge" .null),
         ("status", dGetD first "status" .null),
         ("condition", dGetD first "condition" .null),
         ("model", dGetD first "model" .null),
         ("volts", dGetD first "volts" .null),
         ("serial", dGetD first "serial" .null),
         ("type", dGetD first "type" .null),
         ("cycles", dGetD first "cycles" .null)]
    | [] =>
        [("charge", .int 0), ("status", .str ""), ("condition", .str ""),
         ("model", .str ""), ("volts", .str ""), ("serial", .str ""),
         ("type", .str ""), ("cycles", .str "")]
  pure ([("present", .bool st.1),
         ("batteries", .list (st.2.map JValue.dict))] ++ compat)

/-- Body of the sensors parser's per-item loop: collect numeric CPU,
motherboard and GPU temperatures; a CPU temperature string whose first
`[\d.]+` run has no digit is an uncaught `ValueError` of the source's
`float` call. -/
def sensStep (st : List PyDict) (item : JValue) : P (List PyDict) := do
  let kvs ← asDictE item
  let cleaned := cleanItem kvs
  let st ←
    match dGet cleaned "cpu" with
    | some tv =>
        match tv with
        | .int _ => .ok (st ++ [[("name", JValue.str "CPU"), ("temp", tv)]])
        | .num _ => .ok (st ++ [[("name", JValue.str "CPU"), ("temp", tv)]])
        | .bool _ => .ok (st ++ [[("name", JValue.str "CPU"), ("temp", tv)]])
        | .str s =>
            match numRun s.data with
            | some run =>
                match floatOfRun run with
                | some q => .ok (st ++ [[("name", JValue.str "CPU"), ("temp", JValue.num q)]])
                | none => .error .valueError
            | none => .ok st
        | _ => .ok st
    | none => .ok st
  let st :=
    match dGet cleaned "mobo" with
    | some tv =>
        match tv with
        | .int _ => st ++ [[("name", JValue.str "Motherboard"), ("temp", tv)]]
        | .num _ => st ++ [[("name", JValue.str "Motherboard"), ("temp", tv)]]
        | .bool _ => st ++ [[("name", JValue.str "Motherboard"), ("temp", tv)]]
        | _ => st
    | none => st
  let st :=
    match dGet cleaned "gpu" with
    | some tv =>
        match tv with
        | .int _ => st ++ [[("name", JValue.str "GPU"), ("temp", tv)]]
        | .num _ => st ++ [[("name", JValue.str "GPU"), ("temp", tv)]]
        | .bool _ => st ++ [[("name", JValue.str "GPU"), ("temp", tv)]]
        | _ => st
    | none => st
  pure st

/-- `InxiParser._parse_sensors_section` (the live `sensors` command's
output comes from the environment). -/
def parseSensorsSection (env : Env) (v : JValue) : P PyDict := do
  let items ← pyIterE v
  let st ← items.foldlM sensStep []
  pure
    [("temps", .list (st.map JValue.dict)),
     ("fans", .list []),
     ("sensors_cmd", .str (env.sensorsCmd.getD ""))]

/-- Body of the Info parser's per-item loop (keys are created on first
assignment, so the record is built directly as a dict). -/
def infoStep (st : PyDict) (item : JValue) : P PyDict := do
  let kvs ← asDictE item
  let cleaned := cleanItem kvs
  let st :=
    if dMem cleaned "total" && dMem cleaned "available" then
      let st := dSet st "memory_total" (dGetD cleaned "total" (.str ""))
      let st := dSet st "memory_available" (dGetD cleaned "available" (.str ""))
      dSet st "memory_used" (dGetD cleaned "used" (.str ""))
    else st
  let st :=
    if dMem cleaned "Processes" then
      let st := dSet st "processes" (.str (pyStr (dGetD cleaned "Processes" (.str ""))))
      let st := dSet st "uptime" (dGetD cleaned "uptime" (.str ""))
      let st := dSet st "power_states" (dGetD cleaned "states" (.str ""))
      let st := dSet st "suspend_mode" (dGetD cleaned "suspend" (.str ""))
      let st := dSet st "hibernate_mode" (dGetD cleaned "hibernate" (.str ""))
      let st := dSet st "hibernate_image" (dGetD cleaned "image" (.str ""))
      if dMem cleaned "Init" then
        let st := dSet st "init" (dGetD cleaned "Init" (.str ""))
        let st := dSet st "init_version" (dGetD cleaned "v" (.str ""))
        dSet st "init_services" (dGetD cleaned "services" (.str ""))
      else st
    else st
  let st :=
    if dMem cleaned "Packages" then
      let st := dSet st "packages" (.str (pyStr (dGetD cleaned "Packages" (.str ""))))
      let st := dSet st "shell" (dGetD cleaned "Shell" (.str ""))
      let st := dSet st "shell_version" (dGetD cleaned "v" (.str ""))
      let st := dSet st "inxi_version" (dGetD cleaned "inxi" (.str ""))
      let st := dSet st "gcc_version" (dGetD cleaned "gcc" (.str ""))
      dSet st "clang_version" (dGetD cleaned "clang" (.str ""))
    else st
  let st :=
    if dMem cleaned "Repos" then
      dSet st "repos" (.str (pyStr (dGetD cleaned "Repos" (.str ""))))
    else st
  pure st

/-- `InxiParser._parse_info_section`. -/
def parseInfoSection (v : JValue) : P PyDict := do
  let items ← pyIterE v
  items.foldlM infoStep []

/-- Body of the Bluetooth parser's per-item loop. -/
def btStep (st : List PyDict) (item : JValue) : P (List PyDict) := do
  let kvs ← asDictE item
  let cleaned := cleanItem kvs
  if dMem cleaned "Device" then
    pure (st ++
      [[("name", dGetD cleaned "Device" (.str "")),
        ("vendor", dGetD cleaned "vendor" (.str "")),
        ("driver", dGetD cleaned "driver" (.str "")),
        ("bus_id", dGetD cleaned "bus-ID" (.str "")),
        ("chip_id", dGetD cleaned "chip-ID" (.str "")),
        ("class_id", dGetD cleaned "class-ID" (.str "")),
        ("state", dGetD cleaned "state" (.str "")),
        ("bt_version", dGetD cleaned "bt-v" (.str ""))]])
  else
    pure st

/-- `InxiParser._parse_bluetooth_section`. -/
def parseBluetoothSection (v : JValue) : P PyDict := do
  let items ← pyIterE v
  let st ← items.foldlM btStep []
  pure [("devices", .list (st.map JValue.dict))]

/-- Mutable state of `_parse_processes_section`'s loop. -/
structure ProcState where
  cpuTop : List PyDict := []
  memoryTop : List PyDict := []
  current : Option Bool := none

/-- Body of the processes parser's per-item loop (`current = some true`
inside the CPU-top block, `some false` inside the memory-top block). -/
def procStep (st : ProcState) (item : JValue) : P ProcState := do
  let kvs ← asDictE item
  let cleaned := cleanItem kvs
  if dMem cleaned "CPU top" then
    pure { st with current := some true }
  else if dMem cleaned "Memory top" then
    pure { st with current := some false }
  else if dMem cleaned "command" then
    let proc : PyDict :=
      [("command", dGetD cleaned "command" (.str "")),
       ("pid", dGetD cleaned "pid" (.str "")),
       ("cpu", dGetD cleaned "cpu" (.str "")),
       ("mem", dGetD cleaned "mem" (.str ""))]
    match st.current with
    | some true => pure { st with cpuTop := st.cpuTop ++ [proc] }
    | some false => pure { st with memoryTop := st.memoryTop ++ [proc] }
    | none => pure st
  else
    pure st

/-- `InxiParser._parse_processes_section`. -/
def parseProcessesSection (v : JValue) : P PyDict := do
  let items ← pyIterE v
  let st ← items.foldlM procStep {}
  pure
    [("cpu_top", .list (st.cpuTop.map JValue.dict)),
     ("memory_top", .list (st.memoryTop.map JValue.dict))]

/-- Hash-key view of a Python dict key: strings stay themselves,
other hashable scalars are tagged with a `#` (they never collide with
the parser's own string keys); containers are unhashable. -/
def pyHashKeyE : JValue → P String
  | .str s => .ok s
  | .list _ => .error .typeError
  | .dict _ => .error .typeError
  | .idict _ => .error .typeError
  | v => .ok ("#" ++ pyStr v)

/-- Mutable state of `_parse_repos_section`'s loop. -/
structure RepoState where
  packages : PyDict := []
  repos : List PyDict := []
  repoName : JValue := .str ""

/-- Body of the repos parser's per-item loop (items may be dicts or
lists of repo URLs). -/
def repoStep (st : RepoState) (item : JValue) : P RepoState := do
  match item with
  | .dict kvs =>
      let cleaned := cleanItem kvs
      let st :=
        if dMem cleaned "Packages" then
          { st with packages := (
              dSet st.packages "total" (.str (pyStr (dGetD cleaned "Packages" (.str ""))))) }
        else st
      let st ←
        if dMem cleaned "pm" then do
          let key ← pyHashKeyE (dGetD cleaned "pm" (.str ""))
          pure { st with packages := dSet st.packages key (dGetD cleaned "pkgs" (.int 0)) }
        else pure st
      pure (cleaned.foldl
        (fun st kv =>
          if pyIn "repo" (lowerStr kv.1) || pyIn "Active" kv.1 then
            { st with repoName := kv.2 }
          else st)
        st)
  | .list urls =>
      pure { st with repos := st.repos ++
        urls.filterMap (fun u =>
          match u with
          | .str s => if s ≠ "" then some [("name", st.repoName), ("url", JValue.str s)] else none
          | _ => none) }
  | _ => pure st

/-- `InxiParser._parse_repos_section` (non-list input returns the empty
record instead of raising). -/
def parseReposSection (v : JValue) : P PyDict :=
  match v with
  | .list items => do
      let st ← items.foldlM repoStep {}
      pure [("packages", .dict st.packages), ("repos", .list (st.repos.map JValue.dict))]
  | _ => .ok [("packages", .dict []), ("repos", .list [])]

/-- Body of the USB parser's per-item loop. -/
def usbStep (st : List PyDict × List PyDict) (item : JValue) :
    P (List PyDict × List PyDict) := do
  let kvs ← asDictE item
  let cleaned := cleanItem kvs
  if dMem cleaned "Hub" then
    pure (st.1 ++
      [[("name", dGetD cleaned "Hub" (.str "")),
        ("info", dGetD cleaned "info" (.str "")),
        ("ports", dGetD cleaned "ports" (.str "")),
        ("rev", dGetD cleaned "rev" (.str "")),
        ("speed", dGetD cleaned "speed" (.str "")),
        ("lanes", dGetD cleaned "lanes" (.str "")),
        ("mode", dGetD cleaned "mode" (.str "")),
        ("chip_id", dGetD cleaned "chip-ID" (.str "")),
        ("class_id", dGetD cleaned "class-ID" (.str ""))]], st.2)
  else if dMem cleaned "Device" then
    pure (st.1, st.2 ++
      [[("name", dGetD cleaned "Device" (.str "")),
        ("info", dGetD cleaned "info" (.str "")),
        ("type", dGetD cleaned "type" (.str "")),
        ("driver", dGetD cleaned "driver" (.str "")),
        ("interfaces", dGetD cleaned "interfaces" (.str "")),
        ("rev", dGetD cleaned "rev" (.str "")),
        ("speed", dGetD cleaned "speed" (.str "")),
        ("lanes", dGetD cleaned "lanes" (.str "")),
        ("mode", dGetD cleaned "mode" (.str "")),
        ("power", dGetD cleaned "power" (.str "")),
        ("chip_id", dGetD cleaned "chip-ID" (.str "")),
        ("class_id", dGetD cleaned "class-ID" (.str "")),
        ("serial", dGetD cleaned "serial" (.str ""))]])
  else
    pure st

/-- `InxiParser._parse_usb_section` (the dict keys are `devices` then
`hubs`, in the source's literal order). -/
def parseUsbSection (v : JValue) : P PyDict := do
  let items ← pyIterE v
  let st ← items.foldlM usbStep ([], [])
  pure
    [("devices", .list (st.2.map JValue.dict)),
     ("hubs", .list (st.1.map JValue.dict))]

/-!  Cross-section synthesizer `_extract_pci_devices`.  -/

/-- Whether a value may enter a Python `set` (scalars only here). -/
def hashableB : JValue → Bool
  | .list _ => false
  | .dict _ => false
  | .idict _ => false
  | _ => true

/-- Unified PCI entry built from one source device record. -/
def mkPciEntry (dd : PyDict) (bus : JValue) (classDefault cat : String) : PyDict :=
  [("name", dGetD dd "name" (.str "")),
   ("vendor", dGetD dd "vendor" (.str "")),
   ("driver", dGetD dd "driver" (.str "")),
   ("bus_id", bus),
   ("chip_id", dGetD dd "chip_id" (.str "")),
   ("class_id", dGetD dd "class_id" (.str classDefault)),
   ("category", .str cat),
   ("pcie_gen", dGetD dd "pcie_gen" (.str "")),
   ("pcie_speed", dGetD dd "pcie_speed" (.str "")),
   ("pcie_lanes", dGetD dd "pcie_lanes" (.str ""))]

/-- One device visit of the PCI synthesizer. The audio/network phases
additionally require a PCI-looking bus id (`:` present, `-` absent). -/
def pciStep (filterPci : Bool) (classDefault cat : String)
    (st : List PyDict × List JValue) (dev : JValue) :
    P (List PyDict × List JValue) := do
  let dd ← asDictE dev
  let bus := dGetD dd "bus_id" (.str "")
  if !pyTruthy bus then pure st
  else if filterPci then do
    let busStr ←
      match bus with
      | .str s => Except.ok s
      | _ => Except.error PyErr.typeError
    if pyIn ":" busStr && !pyIn "-" busStr then
      if st.2.any (fun b => jEqScalar b bus) then pure st
      else pure (st.1 ++ [mkPciEntry dd bus classDefault cat], st.2 ++ [bus])
    else pure st
  else
    if !hashableB bus then Except.error PyErr.typeError
    else if st.2.any (fun b => jEqScalar b bus) then pure st
    else pure (st.1 ++ [mkPciEntry dd bus classDefault cat], st.2 ++ [bus])

/-- The `parsed_data.get(section, {}).get("devices", [])` read path of
the PCI synthesizer. -/
def readDevices (parsed : PyDict) (sectionKey : String) : P (List JValue) := do
  let secd ← asDictE (dGetD parsed sectionKey (.dict []))
  pyIterE (dGetD secd "devices" (.list []))

/-- String sort key of an entry (total stand-in; only applied when every
key is a string). -/
def busKeyStr (d : PyDict) : String :=
  match dGetD d "bus_id" (.str "") with
  | .str s => s
  | _ => ""

/-- Numeric sort key of an entry (total stand-in; only applied when
every key is numeric). -/
def busKeyQ (d : PyDict) : ℚ :=
  (qOfNum (dGetD d "bus_id" (.str ""))).getD 0

/-- The `bus_id` field of a source device or unified entry dict. -/
def busOf (d : PyDict) : JValue := dGetD d "bus_id" (.str "")

/-- Python `devices.sort(key=lambda d: d.get("bus_id", ""))`: a stable
sort when all keys are comparable, a `TypeError` when two or more
entries mix strings with non-strings (CPython compares adjacent keys). -/
def pySortByBus (ds : List PyDict) : P (List PyDict) :=
  match ds with
  | [] => .ok []
  | [d] => .ok [d]
  | _ =>
      if ds.all (fun d => match dGetD d "bus_id" (.str "") with
          | .str _ => true
          | _ => false) then
        .ok (ds.insertionSort (fun a b => busKeyStr a ≤ busKeyStr b))
      else if ds.all (fun d => (qOfNum (dGetD d "bus_id" (.str ""))).isSome) then
        .ok (ds.insertionSort (fun a b => busKeyQ a ≤ busKeyQ b))
      else .error .typeError

/-- `InxiParser._extract_pci_devices`. -/
def extractPciDevices (parsed : PyDict) : P PyDict := do
  let gdevs ← readDevices parsed "gpu"
  let st ← gdevs.foldlM (pciStep false "0300" "Graphics") ([], [])
  let adevs ← readDevices parsed "audio"
  let st ← adevs.foldlM (pciStep true "0403" "Audio") st
  let ndevs ← readDevices parsed "network"
  let st ← ndevs.foldlM (pciStep true "0200" "Network") st
  let sorted ← pySortByBus st.1
  pure
    [("devices", .list (sorted.map JValue.dict)),
     ("count", .int (sorted.length : Int))]

/-!  Orchestrator `parse_full`.  -/

/-- The pre-seeded schema of `parse_full`'s `result` dict. -/
def initResult : PyDict :=
  [("cpu", .dict []), ("gpu", .dict []), ("memory", .dict []),
   ("audio", .dict []), ("network", .dict []), ("disk", .dict []),
   ("machine", .dict []), ("system", .dict []), ("battery", .dict []),
   ("sensors", .dict []), ("bluetooth", .dict [])]

/-- The eleven pre-seeded category keys. -/
def elevenKeys : List String :=
  ["cpu", "gpu", "memory", "audio", "network", "disk", "machine", "system",
   "battery", "sensors", "bluetooth"]

/-- The per-category parsers a section can be routed to. -/
inductive Route where
  | cpu | gpu | memory | audio | network | drives | system | machine
  | battery | sensors | info | processes | repos | usb | bluetooth | skip
deriving Repr, DecidableEq

/-- Substring triggers of `parse_full`'s dispatch chain, in the source's
`elif` order (first match wins); unrecognized names route to `skip`. -/
def routeSection (name : String) : Route :=
  if pyIn "CPU" name then .cpu
  else if pyIn "Graphics" name then .gpu
  else if pyIn "Memory" name then .memory
  else if pyIn "Audio" name then .audio
  else if pyIn "Network" name then .network
  else if pyIn "Drives" name then .drives
  else if pyIn "System" name then .system
  else if pyIn "Machine" name then .machine
  else if pyIn "Battery" name then .battery
  else if pyIn "Sensors" name then .sensors
  else if pyIn "Info" name then .info
  else if pyIn "Processes" name then .processes
  else if pyIn "Repos" name then .repos
  else if pyIn "USB" name then .usb
  else if pyIn "Bluetooth" name then .bluetooth
  else .skip

/-- The section dispatch of `parse_full`: route on the cleaned section
name, run the routed parser, store its record (the Info route merges
additively into `system`). -/
def dispatchSection (env : Env) (fullData : List JValue) (res : PyDict)
    (k : String) (v : JValue) : P PyDict :=
  match routeSection (cleanKey k) with
  | .cpu => do
      let d ← parseCpuSection v
      pure (dSet res "cpu" (.dict d))
  | .gpu => do
      let d ← parseGpuSection v
      pure (dSet res "gpu" (.dict d))
  | .memory => do
      let d ← parseMemorySection v
      pure (dSet res "memory" (.dict d))
  | .audio => do
      let d ← parseAudioSection v
      pure (dSet res "audio" (.dict d))
  | .network => do
      let d ← parseNetworkSection env v
      pure (dSet res "network" (.dict d))
  | .drives => do
      let d ← parseDiskSection v fullData
      pure (dSet res "disk" (.dict d))
  | .system => do
      let d ← parseSystemSection env v
      pure (dSet res "system" (.dict d))
  | .machine => do
      let d ← parseMachineSection v
      pure (dSet res "machine" (.dict d))
  | .battery => do
      let d ← parseBatterySection v
      pure (dSet res "battery" (.dict d))
  | .sensors => do
      let d ← parseSensorsSection env v
      pure (dSet res "sensors" (.dict d))
  | .info => do
      let info ← parseInfoSection v
      match dGet res "system" with
      | some (.dict sysd) => pure (dSet res "system" (.dict (dUpdate sysd info)))
      | some _ => Except.error PyErr.attributeError
      | none => pure (dSet res "system" (.dict (dUpdate [] info)))
  | .processes => do
      let d ← parseProcessesSection v
      pure (dSet res "processes" (.dict d))
  | .repos => do
      let d ← parseReposSection v
      pure (dSet res "repos" (.dict d))
  | .usb => do
      let d ← parseUsbSection v
      pure (dSet res "usb_inxi" (.dict d))
  | .bluetooth => do
      let d ← parseBluetoothSection v
      pure (dSet res "bluetooth" (.dict d))
  | .skip => pure res

/-- `InxiParser.parse_full`, the public entry point: falsy or non-list
input returns the pre-seeded schema at once (without `pci_inxi`);
otherwise every section is dispatched and the PCI view is synthesized. -/
def parseFull (env : Env) (data : JValue) : P PyDict :=
  if !pyTruthy data then .ok initResult
  else
    match data with
    | .list elems => do
        let res ← elems.foldlM
          (fun res sec => do
            let kvs ← asDictE sec
            kvs.foldlM (fun res kv => dispatchSection env elems res kv.1 kv.2) res)
          initResult
        let pci ← extractPciDevices res
        pure (dSet res "pci_inxi" (.dict pci))
    | _ => .ok initResult

/-!  Properties of the key normalizer.  -/

/-- Folding the hash-reset accumulator over a hash-free list appends it. -/
theorem afterHash_foldl_no_hash (cs : List Char) (acc : List Char)
    (h : ∀ c ∈ cs, c ≠ '#') :
    cs.foldl (fun acc c => if c = '#' then [] else acc ++ [c]) acc = acc ++ cs := by
  induction cs generalizing acc with
  | nil => simp
  | cons c cs ih =>
      simp only [List.foldl_cons]
      rw [if_neg (h c (by simp))]
      rw [ih _ (fun d hd => h d (by simp [hd]))]
      simp

/-- The hash-reset fold never leaves a `#` in its result. -/
theorem afterHash_foldl_result (cs : List Char) (acc : List Char)
    (h : ∀ c ∈ acc, c ≠ '#') :
    ∀ c ∈ cs.foldl (fun acc c => if c = '#' then [] else acc ++ [c]) acc, c ≠ '#' := by
  induction cs generalizing acc with
  | nil => simpa using h
  | cons c cs ih =>
      simp only [List.foldl_cons]
      by_cases hc : c = '#'
      · rw [if_pos hc]
        exact ih [] (by simp)
      · rw [if_neg hc]
        refine ih _ (fun d hd => ?_)
        rcases List.mem_append.mp hd with h₁ | h₂
        · exact h d h₁
        · simpa using List.mem_singleton.mp h₂ ▸ hc

/-- The result of `afterHash` contains no `#`. -/
theorem afterHash_no_hash (cs : List Char) : ∀ c ∈ afterHash cs, c ≠ '#' :=
  afterHash_foldl_result cs [] (by simp)

/-- The hash-reset fold forgets everything before a `#`. -/
theorem afterHash_append_hash (cs ds : List Char) :
    afterHash (cs ++ '#' :: ds) = afterHash ds := by
  unfold afterHash
  rw [List.foldl_append]
  simp

/-- Boolean `contains` agrees with hash-freeness. -/
theorem contains_hash_eq_false {cs : List Char} (h : ∀ c ∈ cs, c ≠ '#') :
    cs.contains '#' = false := by
  induction cs with
  | nil => rfl
  | cons c cs ih =>
      simp only [List.contains_cons, Bool.or_eq_false_iff]
      exact ⟨by simpa using (h c (by simp)).symm, ih (fun d hd => h d (by simp [hd]))⟩

/-- Boolean `contains` from membership. -/
theorem contains_hash_of_mem {cs : List Char} (h : '#' ∈ cs) :
    cs.contains '#' = true := by
  induction cs with
  | nil => simp at h
  | cons c cs ih =>
      rcases List.mem_cons.mp h with h | h
      · simp only [List.contains_cons]
        simp
        exact Or.inl h
      · simp only [List.contains_cons]
        simp
        exact Or.inr h

/-- The hash-reset fold is the identity on hash-free keys. -/
theorem afterHash_eq_self {cs : List Char} (h : ∀ c ∈ cs, c ≠ '#') :
    afterHash cs = cs := by
  unfold afterHash
  rw [afterHash_foldl_no_hash cs [] h]
  rfl

/-- C9: the key normalizer is total and idempotent; on a key containing
the separator `#` it returns the substring after the last occurrence
(peeling the part before any `#` changes nothing), and it returns keys
without a separator unchanged; in particular
`clean_key("000#1#1#Info") = "Info"` and `clean_key("Info") = "Info"`. -/
theorem c9_clean_key_idempotent :
    (∀ x : String, cleanKey (cleanKey x) = cleanKey x) ∧
    cleanKey "000#1#1#Info" = "Info" ∧
    cleanKey "Info" = "Info" ∧
    (∀ a b : String, cleanKey (a ++ "#" ++ b) = cleanKey b) ∧
    (∀ x : String, x.data.contains '#' = false → cleanKey x = x) := by
  have hnohash : ∀ x : String, x.data.contains '#' = false → cleanKey x = x := by
    intro x hx
    unfold cleanKey
    rw [hx]
    simp
  have hidem : ∀ x : String, cleanKey (cleanKey x) = cleanKey x := by
    intro x
    by_cases hx : x.data.contains '#' = true
    · have h1 : cleanKey x = ⟨afterHash x.data⟩ := by
        unfold cleanKey
        rw [hx]
        simp
      have h2 : (⟨afterHash x.data⟩ : String).data = afterHash x.data := rfl
      rw [h1]
      exact hnohash _ (by rw [h2]; exact contains_hash_eq_false (afterHash_no_hash x.data))
    · simp only [hnohash x (by simpa using hx)]
  refine ⟨hidem, by decide, by decide, ?_, hnohash⟩
  intro a b
  have hdata : (a ++ "#" ++ b).data = a.data ++ '#' :: b.data := by
    simp [String.data_append]
  have hcontains : (a ++ "#" ++ b).data.contains '#' = true := by
    rw [hdata]
    induction a.data with
    | nil => simp [List.contains_cons]
    | cons c cs ih => simp [List.contains_cons, ih]
  have h1 : cleanKey (a ++ "#" ++ b) = ⟨afterHash (a.data ++ '#' :: b.data)⟩ := by
    unfold cleanKey
    rw [hcontains, hdata]
    simp
  rw [h1, afterHash_append_hash]
  by_cases hb : b.data.contains '#' = true
  · unfold cleanKey
    rw [hb]
    simp
  · rw [hnohash b (by simpa using hb)]
    have hb' : ∀ c ∈ b.data, c ≠ '#' := by
      intro c hc hne
      subst hne
      exact hb (contains_hash_of_mem hc)
    rw [afterHash_eq_self hb']

/-!  Generic inversion and invariant lemmas for the `Except` embedding.  -/

/-- Inversion of a successful bind. -/
theorem pbind_ok {α β : Type} {m : P α} {f : α → P β} {b : β}
    (h : (m >>= f) = .ok b) : ∃ a, m = .ok a ∧ f a = .ok b := by
  cases m with
  | error e => simp [Bind.bind, Except.bind] at h
  | ok a => exact ⟨a, rfl, by simpa [Bind.bind, Except.bind] using h⟩

/-- A successful `pure` is equality. -/
theorem ppure_ok {α : Type} {a b : α} (h : (pure a : P α) = .ok b) : a = b := by
  simpa [pure, Except.pure] using h

/-- A successful monadic fold preserves any invariant its step preserves. -/
theorem foldlM_ok_invariant {α σ : Type} (Inv : σ → Prop) (f : σ → α → P σ)
    (hf : ∀ s a s', f s a = .ok s' → Inv s → Inv s') :
    ∀ (l : List α) (s s' : σ), l.foldlM f s = .ok s' → Inv s → Inv s' := by
  intro l
  induction l with
  | nil =>
      intro s s' h hs
      simp only [List.foldlM_nil] at h
      exact (ppure_ok h) ▸ hs
  | cons a l ih =>
      intro s s' h hs
      simp only [List.foldlM_cons] at h
      obtain ⟨s₁, h₁, h₂⟩ := pbind_ok h
      exact ih s₁ s' h₂ (hf s a s₁ h₁ hs)

/-- Inversion of a successful dict coercion. -/
theorem asDictE_ok {v : JValue} {kvs : PyDict} (h : asDictE v = .ok kvs) :
    v = .dict kvs := by
  cases v <;> simp [asDictE] at h
  rw [h]

/-- Looking up the key just set. -/
theorem dGet_dSet_same (d : PyDict) (k : String) (v : JValue) :
    dGet (dSet d k v) k = some v := by
  induction d with
  | nil => simp [dSet, dGet]
  | cons kv rest ih =>
      rcases kv with ⟨k', v'⟩
      by_cases h : k' = k
      · simp [dSet, dGet, h]
      · simp [dSet, dGet, h, ih]

/-- Looking up another key after a set. -/
theorem dGet_dSet_ne (d : PyDict) (k k' : String) (v : JValue) (h : k ≠ k') :
    dGet (dSet d k v) k' = dGet d k' := by
  induction d with
  | nil => simp [dSet, dGet, h]
  | cons kv rest ih =>
      rcases kv with ⟨k₁, v₁⟩
      by_cases h₁ : k₁ = k
      · subst h₁
        simp [dSet, dGet, h]
      · by_cases h₂ : k₁ = k'
        · subst h₂
          simp [dSet, dGet, h₁, Ne.symm h]
        · simp [dSet, dGet, h₁, h₂, ih]

/-!  C1/C2: the schema of the orchestrator's result.  -/

/-- All eleven pre-seeded category keys are present and map to dicts. -/
def elevenOK (res : PyDict) : Prop :=
  ∀ k ∈ elevenKeys, ∃ m, dGet res k = some (.dict m)

/-- The pre-seeded schema satisfies the invariant. -/
theorem elevenOK_init : elevenOK initResult := by
  intro k hk
  simp only [elevenKeys, List.mem_cons, List.not_mem_nil, or_false] at hk
  rcases hk with rfl | rfl | rfl | rfl | rfl | rfl | rfl | rfl | rfl | rfl | rfl <;>
    exact ⟨[], rfl⟩

/-- Setting any key to a dict preserves the invariant. -/
theorem elevenOK_dSet (res : PyDict) (key : String) (d : PyDict)
    (h : elevenOK res) : elevenOK (dSet res key (.dict d)) := by
  intro k hk
  by_cases hkey : key = k
  · exact ⟨d, hkey ▸ dGet_dSet_same res key (.dict d)⟩
  · obtain ⟨m, hm⟩ := h k hk
    exact ⟨m, (dGet_dSet_ne res key k (.dict d) hkey).trans hm⟩

/-- The section dispatch preserves the schema invariant. -/
theorem dispatch_elevenOK (env : Env) (fullData : List JValue) (res : PyDict)
    (k : String) (v : JValue) (res' : PyDict)
    (h : dispatchSection env fullData res k v = .ok res')
    (hres : elevenOK res) : elevenOK res' := by
  unfold dispatchSection at h
  rcases hr : routeSection (cleanKey k) <;> rw [hr] at h <;> dsimp only [] at h
  all_goals try exact (ppure_ok h) ▸ hres
  all_goals obtain ⟨d, hd, h₂⟩ := pbind_ok h
  all_goals try exact (ppure_ok h₂) ▸ elevenOK_dSet res _ _ hres
  all_goals split at h₂
  all_goals try exact (ppure_ok h₂) ▸ elevenOK_dSet res _ _ hres
  all_goals exact Except.noConfusion h₂

/-- C1: whenever `parse_full` returns a mapping, that mapping contains
all eleven category keys `cpu, gpu, memory, audio, network, disk,
machine, system, battery, sensors, bluetooth`, each bound to a mapping
(never `None`); and the inputs `None`, the empty list, and every
non-list value do return, yielding exactly the pre-seeded schema. -/
theorem c1_parse_full_schema_complete :
    (∀ (env : Env) (data : JValue) (r : PyDict), parseFull env data = .ok r →
        ∀ k ∈ elevenKeys, ∃ m, dGet r k = some (.dict m)) ∧
    (∀ env : Env, parseFull env .null = .ok initResult) ∧
    (∀ env : Env, parseFull env (.list []) = .ok initResult) ∧
    (∀ (env : Env) (data : JValue), (∀ elems, data ≠ .list elems) →
        parseFull env data = .ok initResult) := by
  refine ⟨?_, fun _ => rfl, fun _ => rfl, ?_⟩
  · intro env data r h
    unfold parseFull at h
    split at h
    · exact Except.ok.inj h ▸ elevenOK_init
    · split at h
      · obtain ⟨res, hres, h₂⟩ := pbind_ok h
        obtain ⟨pci, hpci, h₃⟩ := pbind_ok h₂
        have hre : elevenOK res := by
          refine foldlM_ok_invariant elevenOK _ ?_ _ _ _ hres elevenOK_init
          intro s a s' hstep hInv
          obtain ⟨kvs, _, h₂⟩ := pbind_ok hstep
          refine foldlM_ok_invariant elevenOK _ ?_ _ _ _ h₂ hInv
          intro s a s' hstep hInv
          exact dispatch_elevenOK _ _ _ _ _ _ hstep hInv
        exact (ppure_ok h₃) ▸ elevenOK_dSet res _ pci hre
      · exact Except.ok.inj h ▸ elevenOK_init
  · intro env data hne
    unfold parseFull
    split
    · rfl
    · cases data with
      | list elems => exact absurd rfl (hne elems)
      | null => rfl
      | bool b => rfl
      | int n => rfl
      | num q => rfl
      | str s => rfl
      | dict kvs => rfl
      | idict kvs => rfl

/-- Closed witness for C1: the degenerate input `None` returns, and the
`cpu` key of the result is a mapping. -/
theorem c1_parse_full_schema_complete_witness :
    ∃ m, dGet initResult "cpu" = some (.dict m) :=
  c1_parse_full_schema_complete.1 {} .null initResult rfl "cpu" (by simp [elevenKeys])

/-- The PCI synthesizer only ever returns a two-key dict holding the
device list and its length. -/
theorem extractPci_shape {parsed : PyDict} {pci : PyDict}
    (h : extractPciDevices parsed = .ok pci) :
    ∃ sorted : List PyDict,
      pci = [("devices", .list (sorted.map JValue.dict)),
             ("count", .int (sorted.length : Int))] := by
  unfold extractPciDevices at h
  obtain ⟨g, _, h⟩ := pbind_ok h
  obtain ⟨st1, _, h⟩ := pbind_ok h
  obtain ⟨a, _, h⟩ := pbind_ok h
  obtain ⟨st2, _, h⟩ := pbind_ok h
  obtain ⟨n, _, h⟩ := pbind_ok h
  obtain ⟨st3, _, h⟩ := pbind_ok h
  obtain ⟨sorted, _, h⟩ := pbind_ok h
  exact ⟨sorted, (ppure_ok h).symm⟩

/-- C2, counterexample: for the empty list (and likewise `None` and any
non-list value) `parse_full` takes the early return and the result does
NOT contain the `pci_inxi` key, contradicting the claim. -/
theorem c2_counterexample :
    parseFull ({} : Env) (.list []) = .ok initResult ∧
    dGet initResult "pci_inxi" = none :=
  ⟨rfl, rfl⟩

/-- C2, amended: on every input on which `parse_full` runs past the
early return — a truthy (nonempty) list — and returns normally, the
result additionally contains the synthesized `pci_inxi` key, a mapping
holding the unified `devices` list and its `count`; the early-return
inputs (`[]`, `None`, non-lists) yield only the eleven base keys. -/
theorem c2_parse_full_pci_key (env : Env) (elems : List JValue) (r : PyDict)
    (htruthy : pyTruthy (.list elems) = true)
    (h : parseFull env (.list elems) = .ok r) :
    ∃ p, dGet r "pci_inxi" = some (.dict p) ∧
      ∃ l, dGet p "devices" = some (.list l) ∧
        dGet p "count" = some (.int (l.length : Int)) := by
  unfold parseFull at h
  rw [htruthy] at h
  dsimp only [] at h
  obtain ⟨res, hres, h₂⟩ := pbind_ok h
  obtain ⟨pci, hpci, h₃⟩ := pbind_ok h₂
  obtain ⟨sorted, hs⟩ := extractPci_shape hpci
  refine ⟨pci, (ppure_ok h₃) ▸ dGet_dSet_same res "pci_inxi" (.dict pci), ?_⟩
  refine ⟨sorted.map JValue.dict, ?_, ?_⟩
  · rw [hs]; rfl
  · rw [hs, List.length_map]; rfl

/-- Closed witness for C2's amended claim at a one-section input. -/
theorem c2_parse_full_pci_key_witness :
    ∃ p, dGet (dSet initResult "pci_inxi"
        (.dict [("devices", .list []), ("count", .int 0)])) "pci_inxi" =
        some (.dict p) ∧
      ∃ l, dGet p "devices" = some (.list l) ∧
        dGet p "count" = some (.int (l.length : Int)) :=
  c2_parse_full_pci_key {} [.dict []] _ rfl rfl

/-!  C5: percentage fields are nonnegative (and can exceed 100).  -/

/-- A value `float(...)` produced from a `[\d.]+` run is nonnegative. -/
theorem floatOfRun_nonneg {cs : List Char} {q : ℚ} (h : floatOfRun cs = some q) :
    0 ≤ q := by
  unfold floatOfRun at h
  split at h
  · obtain rfl : _ = q := Option.some.inj h
    positivity
  · exact absurd h (by simp)

/-- A battery-charge match value is nonnegative. -/
theorem leadFloatQ_nonneg : ∀ {cs : List Char} {q : ℚ},
    leadFloatQ cs = some q → 0 ≤ q := by
  intro cs
  induction cs with
  | nil => intro q h; simp [leadFloatQ] at h
  | cons c rest ih =>
      intro q h
      unfold leadFloatQ at h
      split at h
      · obtain rfl : _ = q := Option.some.inj h
        split
        · dsimp only []
          split <;> positivity
        · positivity
      · exact ih h

/-- Round-half-to-even keeps nonnegativity. -/
theorem rne_nonneg {x : ℚ} (hx : 0 ≤ x) : 0 ≤ rne x := by
  unfold rne
  have hf : 0 ≤ ⌊x⌋ := Int.floor_nonneg.mpr hx
  dsimp only []
  split_ifs <;> omega

/-- One-decimal rounding keeps nonnegativity. -/
theorem round1_nonneg {x : ℚ} (hx : 0 ≤ x) : 0 ≤ round1 x := by
  unfold round1
  have h : 0 ≤ rne (x * 10) := rne_nonneg (by positivity)
  have h' : (0 : ℚ) ≤ (rne (x * 10) : ℚ) := by exact_mod_cast h
  positivity

/-- A percentage-carrying value: the neutral default `0` or a
nonnegative float. -/
def pctOK (v : JValue) : Prop :=
  v = .int 0 ∨ ∃ q : ℚ, 0 ≤ q ∧ v = .num q

/-- A list element that is a dict has a `pctOK` value at `key`. -/
def entryPctOK (key : String) (e : JValue) : Prop :=
  ∀ p : PyDict, e = .dict p → pctOK (dGetD p key (.int 0))

/-- The memory `used_percent` computation is `pctOK`. -/
theorem memUsedPercent_pct (st : MemState) : pctOK (memUsedPercent st) := by
  unfold memUsedPercent
  split
  · rcases h1 : numRun st.total.data with _ | tr <;>
      rcases h2 : numRun st.used.data with _ | ur <;>
      simp only [h1, h2]
    · exact Or.inl rfl
    · exact Or.inl rfl
    · exact Or.inl rfl
    · rcases h3 : floatOfRun tr with _ | tv <;>
        rcases h4 : floatOfRun ur with _ | uv <;>
        simp only [h3, h4]
      · exact Or.inl rfl
      · exact Or.inl rfl
      · exact Or.inl rfl
      · split
        · refine Or.inr ⟨_, ?_, rfl⟩
          refine round1_nonneg ?_
          have huv := floatOfRun_nonneg h4
          have htv := floatOfRun_nonneg h3
          positivity
        · exact Or.inl rfl
  · exact Or.inl rfl

/-- The rendered memory record's `used_percent` is the computed one. -/
theorem renderMem_used_percent (st : MemState) :
    dGet (renderMem st) "used_percent" = some (memUsedPercent st) := by
  rcases st.modulesCount with _ | c <;> simp [renderMem, dGet]

/-- The memory parser's `used_percent` is `pctOK`. -/
theorem parseMemory_pct {v : JValue} {m : PyDict}
    (h : parseMemorySection v = .ok m) :
    pctOK (dGetD m "used_percent" (.int 0)) := by
  unfold parseMemorySection at h
  obtain ⟨its, hits, h₂⟩ := pbind_ok h
  obtain ⟨st, hfold, hpure⟩ := pbind_ok h₂
  have hm := ppure_ok hpure
  subst hm
  rw [dGetD, renderMem_used_percent]
  exact memUsedPercent_pct st

/-- A successful parenthesized-percent extraction is `pctOK`. -/
theorem parenPercentE_pct {s : String} {v : JValue}
    (h : parenPercentE s = .ok v) : pctOK v := by
  unfold parenPercentE at h
  split at h
  · split at h
    · obtain rfl : _ = v := Except.ok.inj h
      exact Or.inr ⟨_, floatOfRun_nonneg (by assumption), rfl⟩
    · exact Except.noConfusion h
  · exact Or.inl (Except.ok.inj h).symm

/-- The drives-loop invariant: the summary `used_percent` stays `pctOK`. -/
theorem diskDriveStep_pct {st : DiskState} {item : JValue} {st' : DiskState}
    (h : diskDriveStep st item = .ok st') (hst : pctOK st.usedPercent) :
    pctOK st'.usedPercent := by
  unfold diskDriveStep at h
  obtain ⟨kvs, hkvs, h₂⟩ := pbind_ok h
  clear h
  dsimp only [] at h₂
  split at h₂
  · split at h₂
    · split at h₂
      · obtain rfl : _ = st' := ppure_ok h₂
        exact Or.inr ⟨_, floatOfRun_nonneg (by assumption), rfl⟩
      · exact Except.noConfusion h₂
    · obtain rfl : _ = st' := ppure_ok h₂
      exact hst
  · split at h₂
    · obtain rfl : _ = st' := ppure_ok h₂
      exact hst
    · obtain rfl : _ = st' := ppure_ok h₂
      exact hst

/-- The partition record's `used_percent` is the extracted one. -/
theorem mkPartition_pct {c : PyDict} {u : String} {up : JValue}
    (h : pctOK up) : entryPctOK "used_percent" (.dict (mkPartition c u up)) := by
  intro p hp
  obtain rfl : _ = p := JValue.dict.inj hp
  simpa [mkPartition, dGetD, dGet] using h

/-- The swap record's `used_percent` is the extracted one. -/
theorem mkSwap_pct {c : PyDict} {u : String} {up : JValue}
    (h : pctOK up) : entryPctOK "used_percent" (.dict (mkSwap c u up)) := by
  intro p hp
  obtain rfl : _ = p := JValue.dict.inj hp
  simpa [mkSwap, dGetD, dGet] using h

/-- The sibling-section scan keeps every collected partition and swap
record's `used_percent` `pctOK`. -/
def diskScanInv (st : DiskState2) : Prop :=
  (∀ p ∈ st.partitions, entryPctOK "used_percent" (.dict p)) ∧
  (∀ p ∈ st.swap, entryPctOK "used_percent" (.dict p))

/-- One Partition item preserves the scan invariant. -/
theorem partItemStep_inv {st : DiskState2} {item : JValue} {st' : DiskState2}
    (h : partItemStep st item = .ok st') (hst : diskScanInv st) :
    diskScanInv st' := by
  unfold partItemStep at h
  obtain ⟨kvs, hkvs, h₂⟩ := pbind_ok h
  clear h
  dsimp only [] at h₂
  split at h₂
  · obtain ⟨up, hup, h₃⟩ := pbind_ok h₂
    obtain rfl : _ = st' := ppure_ok h₃
    refine ⟨?_, hst.2⟩
    intro p hp
    rcases List.mem_append.mp hp with hmem | hmem
    · exact hst.1 p hmem
    · obtain rfl := List.mem_singleton.mp hmem
      exact mkPartition_pct (parenPercentE_pct hup)
  · obtain rfl : _ = st' := ppure_ok h₂
    exact hst

/-- One Swap item preserves the scan invariant. -/
theorem swapItemStep_inv {st : DiskState2} {item : JValue} {st' : DiskState2}
    (h : swapItemStep st item = .ok st') (hst : diskScanInv st) :
    diskScanInv st' := by
  unfold swapItemStep at h
  obtain ⟨kvs, hkvs, h₂⟩ := pbind_ok h
  clear h
  dsimp only [] at h₂
  split at h₂
  · obtain rfl : _ = st' := ppure_ok h₂
    exact hst
  · split at h₂
    · obtain ⟨up, hup, h₃⟩ := pbind_ok h₂
      obtain rfl : _ = st' := ppure_ok h₃
      refine ⟨hst.1, ?_⟩
      intro p hp
      rcases List.mem_append.mp hp with hmem | hmem
      · exact hst.2 p hmem
      · obtain rfl := List.mem_singleton.mp hmem
        exact mkSwap_pct (parenPercentE_pct hup)
    · obtain rfl : _ = st' := ppure_ok h₂
      exact hst

/-- One sibling section preserves the scan invariant. -/
theorem diskSectionsStep_inv {st : DiskState2} {sec : JValue} {st' : DiskState2}
    (h : diskSectionsStep st sec = .ok st') (hst : diskScanInv st) :
    diskScanInv st' := by
  unfold diskSectionsStep at h
  obtain ⟨kvs, hkvs, h₂⟩ := pbind_ok h
  clear h
  refine foldlM_ok_invariant diskScanInv _ ?_ kvs st st' h₂ hst
  intro s a s' hstep hs
  dsimp only [] at hstep
  split at hstep
  · split at hstep
    · exact foldlM_ok_invariant diskScanInv _
        (fun s a s' h hs => partItemStep_inv h hs) _ s s' hstep hs
    · exact (ppure_ok hstep) ▸ hs
  · split at hstep
    · split at hstep
      · exact foldlM_ok_invariant diskScanInv _
          (fun s a s' h hs => swapItemStep_inv h hs) _ s s' hstep hs
      · exact (ppure_ok hstep) ▸ hs
    · exact (ppure_ok hstep) ▸ hs

/-- The disk parser's three percentage fields are all `pctOK`. -/
theorem parseDisk_pct {v : JValue} {full : List JValue} {d : PyDict}
    (h : parseDiskSection v full = .ok d) :
    pctOK (dGetD d "used_percent" (.int 0)) ∧
    (∀ l, dGet d "partitions" = some (.list l) →
      ∀ e ∈ l, entryPctOK "used_percent" e) ∧
    (∀ l, dGet d "swap" = some (.list l) →
      ∀ e ∈ l, entryPctOK "used_percent" e) := by
  unfold parseDiskSection at h
  obtain ⟨its, hits, h₂⟩ := pbind_ok h
  obtain ⟨st, hfold, h₃⟩ := pbind_ok h₂
  obtain ⟨st₂, hfold₂, h₄⟩ := pbind_ok h₃
  obtain rfl : _ = d := ppure_ok h₄
  have hup : pctOK st.usedPercent :=
    foldlM_ok_invariant (fun s => pctOK s.usedPercent) _
      (fun s a s' h hs => diskDriveStep_pct h hs) its {} st hfold (Or.inl rfl)
  have hscan : diskScanInv st₂ :=
    foldlM_ok_invariant diskScanInv _
      (fun s a s' h hs => diskSectionsStep_inv h hs) full {} st₂ hfold₂
      ⟨fun p hp => absurd hp (List.not_mem_nil p), fun p hp => absurd hp (List.not_mem_nil p)⟩
  refine ⟨?_, ?_, ?_⟩
  · rcases st₂.swapKernel with _ | k <;> simpa [dGetD, dGet] using hup
  · intro l hl e he
    have hl' : l = st₂.partitions.map JValue.dict := by
      rcases st₂.swapKernel with _ | k <;>
        simpa [dGet] using (Option.some.inj hl).symm
    subst hl'
    obtain ⟨p, hp, rfl⟩ := List.mem_map.mp he
    exact hscan.1 p hp
  · intro l hl e he
    have hl' : l = st₂.swap.map JValue.dict := by
      rcases st₂.swapKernel with _ | k <;>
        simpa [dGet] using (Option.some.inj hl).symm
    subst hl'
    obtain ⟨p, hp, rfl⟩ := List.mem_map.mp he
    exact hscan.2 p hp

/-- The extracted charge value of one battery item. -/
def batChargeVal (c : PyDict) : JValue :=
  match dGet c "charge" with
  | some cv =>
      match leadFloatQ (pyStr cv).data with
      | some q => .num q
      | none => .int 0
  | none => .int 0

/-- Each battery record carries a nonnegative charge under its key. -/
theorem mkBattery_charge_pct (c : PyDict) :
    ∃ ch, dGet (mkBattery c) "charge" = some ch ∧ pctOK ch := by
  refine ⟨batChargeVal c, ?_, ?_⟩
  · unfold mkBattery batChargeVal
    dsimp only []
    simp [dGet]
  · unfold batChargeVal
    rcases dGet c "charge" with _ | cv
    · exact Or.inl rfl
    · dsimp only []
      rcases h : leadFloatQ (pyStr cv).data with _ | q <;> simp only [h]
      · exact Or.inl rfl
      · exact Or.inr ⟨q, leadFloatQ_nonneg h, rfl⟩

/-- The battery-loop invariant: every collected battery has a `pctOK`
charge under its `charge` key. -/
def batInv (st : Bool × List PyDict) : Prop :=
  ∀ b ∈ st.2, ∃ ch, dGet b "charge" = some ch ∧ pctOK ch

/-- One battery item preserves the invariant. -/
theorem batStep_inv {st : Bool × List PyDict} {item : JValue}
    {st' : Bool × List PyDict}
    (h : batStep st item = .ok st') (hst : batInv st) : batInv st' := by
  unfold batStep at h
  obtain ⟨kvs, hkvs, h₂⟩ := pbind_ok h
  clear h
  dsimp only [] at h₂
  split at h₂
  · obtain rfl : _ = st' := ppure_ok h₂
    intro b hb
    rcases List.mem_append.mp hb with hmem | hmem
    · exact hst b hmem
    · obtain rfl := List.mem_singleton.mp hmem
      exact mkBattery_charge_pct _
  · obtain rfl : _ = st' := ppure_ok h₂
    exact hst

/-- The battery parser's charges (top-level and per battery) are
`pctOK`. -/
theorem parseBattery_pct {v : JValue} {b : PyDict}
    (h : parseBatterySection v = .ok b) :
    pctOK (dGetD b "charge" (.int 0)) ∧
    (∀ l, dGet b "batteries" = some (.list l) →
      ∀ e ∈ l, entryPctOK "charge" e) := by
  unfold parseBatterySection at h
  obtain ⟨its, hits, h₂⟩ := pbind_ok h
  obtain ⟨st, hfold, h₃⟩ := pbind_ok h₂
  obtain ⟨present, bats⟩ := st
  obtain rfl : _ = b := ppure_ok h₃
  have hinv : batInv (present, bats) :=
    foldlM_ok_invariant batInv _ (fun s a s' h hs => batStep_inv h hs)
      its (false, []) _ hfold (fun x hx => absurd hx (List.not_mem_nil x))
  constructor
  · rcases bats with _ | ⟨first, rest⟩
    · left
      simp [dGetD, dGet]
    · obtain ⟨ch, hch, hpct⟩ := hinv first (by simp)
      simp only [dGetD, dGet]
      simp [hch]
      exact hpct
  · intro l hl e he
    have hl' : l = bats.map JValue.dict := by
      rcases bats with _ | ⟨first, rest⟩ <;>
        simpa [dGet] using (Option.some.inj hl).symm
    subst hl'
    obtain ⟨p, hp, rfl⟩ := List.mem_map.mp he
    intro p' hp'
    obtain rfl : _ = p' := JValue.dict.inj hp'
    obtain ⟨ch, hch, hpct⟩ := hinv p hp
    rw [dGetD, hch]
    exact hpct

/-- All percentage fields of a result mapping are `pctOK`. -/
def percentFieldsOK (r : PyDict) : Prop :=
  (∀ m, dGet r "memory" = some (.dict m) →
    pctOK (dGetD m "used_percent" (.int 0))) ∧
  (∀ d, dGet r "disk" = some (.dict d) →
    pctOK (dGetD d "used_percent" (.int 0)) ∧
    (∀ l, dGet d "partitions" = some (.list l) →
      ∀ e ∈ l, entryPctOK "used_percent" e) ∧
    (∀ l, dGet d "swap" = some (.list l) →
      ∀ e ∈ l, entryPctOK "used_percent" e)) ∧
  (∀ b, dGet r "battery" = some (.dict b) →
    pctOK (dGetD b "charge" (.int 0)) ∧
    (∀ l, dGet b "batteries" = some (.list l) →
      ∀ e ∈ l, entryPctOK "charge" e))

/-- The pre-seeded schema has only default percentage fields. -/
theorem percentFieldsOK_init : percentFieldsOK initResult := by
  refine ⟨?_, ?_, ?_⟩
  · intro m hm
    have hm' : m = [] := by simpa [initResult, dGet] using hm
    subst hm'
    exact Or.inl rfl
  · intro d hd
    have hd' : d = [] := by simpa [initResult, dGet] using hd
    subst hd'
    exact ⟨Or.inl rfl, by intro l hl; simp [dGet] at hl,
           by intro l hl; simp [dGet] at hl⟩
  · intro b hb
    have hb' : b = [] := by simpa [initResult, dGet] using hb
    subst hb'
    exact ⟨Or.inl rfl, by intro l hl; simp [dGet] at hl⟩

/-- Setting a key other than the three percent-carrying ones preserves
the invariant. -/
theorem percentFieldsOK_dSet_other (res : PyDict) (key : String) (v : JValue)
    (hk₁ : key ≠ "memory") (hk₂ : key ≠ "disk") (hk₃ : key ≠ "battery")
    (h : percentFieldsOK res) : percentFieldsOK (dSet res key v) := by
  refine ⟨?_, ?_, ?_⟩
  · intro m hm
    exact h.1 m (by rwa [dGet_dSet_ne res key _ v hk₁] at hm)
  · intro d hd
    exact h.2.1 d (by rwa [dGet_dSet_ne res key _ v hk₂] at hd)
  · intro b hb
    exact h.2.2 b (by rwa [dGet_dSet_ne res key _ v hk₃] at hb)

/-- The dispatch preserves the percent invariant. -/
theorem dispatch_percentOK (env : Env) (fullData : List JValue) (res : PyDict)
    (k : String) (v : JValue) (res' : PyDict)
    (h : dispatchSection env fullData res k v = .ok res')
    (hres : percentFieldsOK res) : percentFieldsOK res' := by
  unfold dispatchSection at h
  rcases hr : routeSection (cleanKey k) <;> rw [hr] at h <;> dsimp only [] at h
  case memory =>
    obtain ⟨d, hd, h₂⟩ := pbind_ok h
    obtain rfl : _ = res' := ppure_ok h₂
    refine ⟨?_, ?_, ?_⟩
    · intro m hm
      rw [dGet_dSet_same] at hm
      obtain rfl : _ = m := JValue.dict.inj (Option.some.inj hm)
      exact parseMemory_pct hd
    · intro dd hdd
      exact hres.2.1 dd (by rwa [dGet_dSet_ne res _ _ _ (by decide)] at hdd)
    · intro b hb
      exact hres.2.2 b (by rwa [dGet_dSet_ne res _ _ _ (by decide)] at hb)
  case drives =>
    obtain ⟨d, hd, h₂⟩ := pbind_ok h
    obtain rfl : _ = res' := ppure_ok h₂
    refine ⟨?_, ?_, ?_⟩
    · intro m hm
      exact hres.1 m (by rwa [dGet_dSet_ne res _ _ _ (by decide)] at hm)
    · intro dd hdd
      rw [dGet_dSet_same] at hdd
      obtain rfl : _ = dd := JValue.dict.inj (Option.some.inj hdd)
      exact parseDisk_pct hd
    · intro b hb
      exact hres.2.2 b (by rwa [dGet_dSet_ne res _ _ _ (by decide)] at hb)
  case battery =>
    obtain ⟨d, hd, h₂⟩ := pbind_ok h
    obtain rfl : _ = res' := ppure_ok h₂
    refine ⟨?_, ?_, ?_⟩
    · intro m hm
      exact hres.1 m (by rwa [dGet_dSet_ne res _ _ _ (by decide)] at hm)
    · intro dd hdd
      exact hres.2.1 dd (by rwa [dGet_dSet_ne res _ _ _ (by decide)] at hdd)
    · intro b hb
      rw [dGet_dSet_same] at hb
      obtain rfl : _ = b := JValue.dict.inj (Option.some.inj hb)
      exact parseBattery_pct hd
  case info =>
    obtain ⟨info, hinfo, h₂⟩ := pbind_ok h
    split at h₂
    · obtain rfl : _ = res' := ppure_ok h₂
      exact percentFieldsOK_dSet_other res _ _ (by decide) (by decide) (by decide) hres
    · exact Except.noConfusion h₂
    · obtain rfl : _ = res' := ppure_ok h₂
      exact percentFieldsOK_dSet_other res _ _ (by decide) (by decide) (by decide) hres
  case skip => exact (ppure_ok h) ▸ hres
  all_goals
    obtain ⟨d, hd, h₂⟩ := pbind_ok h
  all_goals
    obtain rfl : _ = res' := ppure_ok h₂
  all_goals
    exact percentFieldsOK_dSet_other res _ _ (by decide) (by decide) (by decide) hres

/-- C5, amended: every percentage field derived from free text in the
returned model — memory `used_percent`, disk summary/partition/swap
`used_percent`, battery charges — is a NONNEGATIVE float or the neutral
default `0`; the memory computation swallows parse failures (the disk
parser's uncaught `float` `ValueError` on a digitless group is covered
under C4). The upper bound 100 of the original claim does not hold. -/
theorem c5_percent_fields_nonneg (env : Env) (data : JValue) (r : PyDict)
    (h : parseFull env data = .ok r) : percentFieldsOK r := by
  unfold parseFull at h
  split at h
  · exact Except.ok.inj h ▸ percentFieldsOK_init
  · split at h
    · obtain ⟨res, hres, h₂⟩ := pbind_ok h
      obtain ⟨pci, hpci, h₃⟩ := pbind_ok h₂
      have hro : percentFieldsOK res := by
        refine foldlM_ok_invariant percentFieldsOK _ ?_ _ _ _ hres percentFieldsOK_init
        intro s a s' hstep hInv
        obtain ⟨kvs, _, h₂⟩ := pbind_ok hstep
        refine foldlM_ok_invariant percentFieldsOK _ ?_ _ _ _ h₂ hInv
        intro s a s' hstep hInv
        exact dispatch_percentOK _ _ _ _ _ _ hstep hInv
      exact (ppure_ok h₃) ▸
        percentFieldsOK_dSet_other res _ _ (by decide) (by decide) (by decide) hro
    · exact Except.ok.inj h ▸ percentFieldsOK_init

/-- Closed witness for C5's amended claim. -/
theorem c5_percent_fields_nonneg_witness : percentFieldsOK initResult :=
  c5_percent_fields_nonneg {} .null initResult rfl

/-- The memory section that produces a 500% `used_percent`. -/
def c5Input : JValue :=
  .list [.dict [("000#1#1#Memory", .list
    [.dict [("001#1#1#total", .str "1 GiB"), ("002#1#1#used", .str "5 GiB")]])]]

/-- The memory state reached by the counterexample input. -/
def c5MemState : MemState := { total := "1 GiB", used := "5 GiB" }

/-- One-digit runs convert to their digit value. -/
theorem floatOfRun_digit1 : floatOfRun ['1'] = some ((1 : ℚ)) := by
  unfold floatOfRun
  rw [if_pos (by decide)]
  have ht : List.takeWhile (fun c => c ≠ '.') ['1'] = ['1'] := rfl
  have hd : (List.dropWhile (fun c => c ≠ '.') ['1']).drop 1 = [] := rfl
  rw [ht, hd]
  dsimp only []
  rw [show natOfDigits ['1'] = 1 from rfl, show natOfDigits [] = 0 from rfl]
  norm_num

/-- One-digit runs convert to their digit value (five). -/
theorem floatOfRun_digit5 : floatOfRun ['5'] = some ((5 : ℚ)) := by
  unfold floatOfRun
  rw [if_pos (by decide)]
  have ht : List.takeWhile (fun c => c ≠ '.') ['5'] = ['5'] := rfl
  have hd : (List.dropWhile (fun c => c ≠ '.') ['5']).drop 1 = [] := rfl
  rw [ht, hd]
  dsimp only []
  rw [show natOfDigits ['5'] = 5 from rfl, show natOfDigits [] = 0 from rfl]
  norm_num

/-- Exact one-decimal rounding of the value 500. -/
theorem round1_500 : round1 ((5 : ℚ) / 1 * 100) = 500 := by
  have h : ((5 : ℚ) / 1 * 100) * 10 = ((5000 : Int) : ℚ) := by norm_num
  unfold round1 rne
  rw [h, Int.floor_intCast]
  norm_num

/-- The counterexample memory state computes a 500% `used_percent`. -/
theorem c5MemState_percent : memUsedPercent c5MemState = .num 500 := by
  unfold memUsedPercent
  rw [if_pos (by constructor <;> decide)]
  have h1 : numRun (c5MemState.total.data) = some ['1'] := by decide
  have h2 : numRun (c5MemState.used.data) = some ['5'] := by decide
  rw [h1, h2]
  dsimp only []
  rw [floatOfRun_digit1, floatOfRun_digit5]
  dsimp only []
  rw [if_pos (by norm_num)]
  rw [round1_500]

/-- C5, counterexample: with memory `total = "1 GiB"` and
`used = "5 GiB"` the computed `used_percent` is `500.0`, which is
neither in `[0, 100]` nor the neutral default `0`. -/
theorem c5_counterexample :
    ∃ r m, parseFull ({} : Env) c5Input = .ok r ∧
      dGet r "memory" = some (.dict m) ∧
      dGet m "used_percent" = some (.num 500) ∧
      ¬ ((500 : ℚ) ≤ 100) ∧ (500 : ℚ) ≠ 0 := by
  refine ⟨_, _, rfl, rfl, ?_, by norm_num, by norm_num⟩
  have hren : dGet (renderMem c5MemState) "used_percent"
      = some (memUsedPercent c5MemState) := renderMem_used_percent _
  rw [show memUsedPercent c5MemState = .num 500 from c5MemState_percent] at hren
  exact hren

/-!  C7: the CPU thread/core fallback.  -/

/-- An item reports a parseable integer `threads` field. -/
def cpuReportsThreads (item : JValue) : Bool :=
  match item with
  | .dict kvs =>
      (match dGet (cleanItem kvs) "threads" with
       | some v => (pyInt v).isSome
       | none => false)
  | _ => false

/-- A cleaned item's `Info` text mines a core count (keyword or regex). -/
def cpuInfoMines (cleaned : PyDict) : Bool :=
  match dGet cleaned "Info" with
  | some (.str s) =>
      pyTruthy (.str s) &&
        (pyIn "quad core" (lowerStr s) || pyIn "octa core" (lowerStr s) ||
         pyIn "dual core" (lowerStr s) || pyIn "hexa core" (lowerStr s) ||
         (minedCoreNat (lowerStr s).data).isSome)
  | _ => false

/-- An item reports a parseable `cores` field or mines one from `Info`. -/
def cpuReportsCores (item : JValue) : Bool :=
  match item with
  | .dict kvs =>
      (match dGet (cleanItem kvs) "cores" with
       | some v => (pyInt v).isSome
       | none => false) || cpuInfoMines (cleanItem kvs)
  | _ => false

/-- Topology-field preservation between CPU states. -/
def topo3 (a b : CpuState) : Prop :=
  a.threads = b.threads ∧ a.cores = b.cores ∧ a.coreSpeeds = b.coreSpeeds

/-- Reflexivity of topology preservation. -/
theorem topo3_refl (a : CpuState) : topo3 a a := ⟨rfl, rfl, rfl⟩

/-- Transitivity of topology preservation. -/
theorem topo3_trans {a b c : CpuState} (h₁ : topo3 a b) (h₂ : topo3 b c) :
    topo3 a c :=
  ⟨h₁.1.trans h₂.1, h₁.2.1.trans h₂.2.1, h₁.2.2.trans h₂.2.2⟩

/-- A passthrough whose setter leaves the topology fields alone
preserves them. -/
theorem cpuPass_topo (c : PyDict) (k : String)
    (f : CpuState → JValue → CpuState) (st : CpuState)
    (hf : ∀ s v, topo3 (f s v) s) : topo3 (cpuPass c k f st) st := by
  unfold cpuPass
  cases dGet c k with
  | none => exact topo3_refl st
  | some v => exact hf st v

/-- The passthrough stage preserves the topology fields. -/
theorem cpuUpdPass_topo (c : PyDict) (st : CpuState) :
    topo3 (cpuUpdPass c st) st := by
  unfold cpuUpdPass
  dsimp only []
  refine topo3_trans (cpuPass_topo _ _ _ _ (fun s v => ⟨rfl, rfl, rfl⟩)) ?_
  refine topo3_trans (cpuPass_topo _ _ _ _ (fun s v => ⟨rfl, rfl, rfl⟩)) ?_
  refine topo3_trans (cpuPass_topo _ _ _ _ (fun s v => ⟨rfl, rfl, rfl⟩)) ?_
  refine topo3_trans (cpuPass_topo _ _ _ _ (fun s v => ⟨rfl, rfl, rfl⟩)) ?_
  refine topo3_trans (cpuPass_topo _ _ _ _ (fun s v => ⟨rfl, rfl, rfl⟩)) ?_
  refine topo3_trans (cpuPass_topo _ _ _ _ (fun s v => ⟨rfl, rfl, rfl⟩)) ?_
  refine topo3_trans (cpuPass_topo _ _ _ _ (fun s v => ⟨rfl, rfl, rfl⟩)) ?_
  refine topo3_trans (cpuPass_topo _ _ _ _ (fun s v => ⟨rfl, rfl, rfl⟩)) ?_
  refine topo3_trans (cpuPass_topo _ _ _ _ (fun s v => ⟨rfl, rfl, rfl⟩)) ?_
  refine topo3_trans (cpuPass_topo _ _ _ _ (fun s v => ⟨rfl, rfl, rfl⟩)) ?_
  refine topo3_trans (cpuPass_topo _ _ _ _ (fun s v => ⟨rfl, rfl, rfl⟩)) ?_
  refine topo3_trans (cpuPass_topo _ _ _ _ (fun s v => ⟨rfl, rfl, rfl⟩)) ?_
  refine topo3_trans (cpuPass_topo _ _ _ _ (fun s v => ⟨rfl, rfl, rfl⟩)) ?_
  exact cpuPass_topo _ _ _ _ (fun s v => ⟨rfl, rfl, rfl⟩)

/-- The min/max split preserves the topology fields. -/
theorem cpuUpdMinMax_topo (c : PyDict) (st : CpuState) :
    topo3 (cpuUpdMinMax c st) st := by
  unfold cpuUpdMinMax
  rcases dGet c "min/max" with _ | v
  · exact topo3_refl _
  · dsimp only []
    repeat' split
    all_goals exact topo3_refl _

/-- The flags assignment preserves the topology fields. -/
theorem cpuUpdFlags_topo (c : PyDict) (st : CpuState) :
    topo3 (cpuUpdFlags c st) st := by
  unfold cpuUpdFlags
  repeat' split
  all_goals exact topo3_refl _

/-- The vulnerability collection preserves the topology fields. -/
theorem cpuUpdVulns_topo (c : PyDict) (st : CpuState) :
    topo3 (cpuUpdVulns c st) st := by
  unfold cpuUpdVulns
  rcases dGet c "Type" with _ | tv
  · exact topo3_refl _
  · exact ⟨rfl, rfl, rfl⟩

/-- The tail stage (speeds, flags, vulnerabilities) preserves the
topology fields. -/
theorem cpuUpdTail_topo (c : PyDict) (st : CpuState) :
    topo3 (cpuUpdTail c st) st := by
  unfold cpuUpdTail
  refine topo3_trans (cpuUpdVulns_topo _ _) ?_
  refine topo3_trans (cpuUpdFlags_topo _ _) ?_
  refine topo3_trans (cpuPass_topo _ _ _ _ (fun s v => ⟨rfl, rfl, rfl⟩)) ?_
  refine topo3_trans (cpuPass_topo _ _ _ _ (fun s v => ⟨rfl, rfl, rfl⟩)) ?_
  refine topo3_trans (cpuPass_topo _ _ _ _ (fun s v => ⟨rfl, rfl, rfl⟩)) ?_
  refine topo3_trans (cpuUpdMinMax_topo _ _) ?_
  exact cpuPass_topo _ _ _ _ (fun s v => ⟨rfl, rfl, rfl⟩)

/-- The `Info` mining stage keeps `threads` and `core_speeds`, and keeps
`cores` too when the text mines nothing. -/
theorem cpuUpdInfo_ok (c : PyDict) (st st₁ : CpuState)
    (h : cpuUpdInfo c st = .ok st₁) :
    st₁.threads = st.threads ∧ st₁.coreSpeeds = st.coreSpeeds ∧
      (cpuInfoMines c = false → st₁.cores = st.cores) := by
  unfold cpuUpdInfo at h
  unfold cpuInfoMines
  rcases hI : dGet c "Info" with _ | iv
  · rw [hI] at h
    dsimp only [] at h
    have := ppure_ok h
    subst this
    exact ⟨rfl, rfl, fun _ => rfl⟩
  · rw [hI] at h
    dsimp only [] at h
    rcases htr : pyTruthy iv
    · rw [htr] at h
      simp only [Bool.false_eq_true, if_false] at h
      have := ppure_ok h
      subst this
      exact ⟨rfl, rfl, fun _ => rfl⟩
    · rw [htr] at h
      simp only [if_true] at h
      obtain ⟨low, hlow, h⟩ := pbind_ok h
      cases iv <;> simp [asStrLowerE] at hlow
      case str s =>
        subst hlow
        have := ppure_ok h
        subst this
        simp only [htr, Bool.true_and]
        refine ⟨?_, ?_, ?_⟩
        · repeat' split
          all_goals rfl
        · repeat' split
          all_goals rfl
        · intro hm
          simp only [Bool.or_eq_false_iff] at hm
          obtain ⟨⟨⟨⟨h1, h2⟩, h3⟩, h4⟩, h5⟩ := hm
          rw [h1, h2, h3, h4]
          simp only [Bool.false_eq_true, if_false]
          rcases hmc : minedCoreNat (lowerStr s).data with _ | n
          · rfl
          · rw [hmc] at h5
            simp at h5

/-- The reported-`cores` stage keeps `threads` and `core_speeds`, and
keeps `cores` when the field is absent or unparseable. -/
theorem cpuUpdCores_proj (c : PyDict) (st : CpuState) :
    (cpuUpdCores c st).threads = st.threads ∧
    (cpuUpdCores c st).coreSpeeds = st.coreSpeeds ∧
    ((match dGet c "cores" with
      | some v => (pyInt v).isSome
      | none => false) = false → (cpuUpdCores c st).cores = st.cores) := by
  unfold cpuUpdCores
  rcases dGet c "cores" with _ | v
  · exact ⟨rfl, rfl, fun _ => rfl⟩
  · rcases h : pyInt v with _ | n <;> simp [h]

/-- The reported-`threads` stage keeps `cores` and `core_speeds`, and
keeps `threads` when the field is absent or unparseable. -/
theorem cpuUpdThreads_proj (c : PyDict) (st : CpuState) :
    (cpuUpdThreads c st).cores = st.cores ∧
    (cpuUpdThreads c st).coreSpeeds = st.coreSpeeds ∧
    ((match dGet c "threads" with
      | some v => (pyInt v).isSome
      | none => false) = false → (cpuUpdThreads c st).threads = st.threads) := by
  unfold cpuUpdThreads
  rcases dGet c "threads" with _ | v
  · exact ⟨rfl, rfl, fun _ => rfl⟩
  · rcases h : pyInt v with _ | n <;> simp [h]

/-- The speeds stage keeps `threads` and `cores`. -/
theorem cpuUpdSpeeds_proj (c : PyDict) (st : CpuState) :
    (cpuUpdSpeeds c st).threads = st.threads ∧
    (cpuUpdSpeeds c st).cores = st.cores :=
  ⟨rfl, rfl⟩

/-- One CPU item visit keeps `threads` when the item does not report a
parseable `threads`, and keeps `cores` when it reports no core count. -/
theorem cpuStep_topology (st : CpuState) (item : JValue) (st' : CpuState)
    (h : cpuStep st item = .ok st') :
    (cpuReportsThreads item = false → st'.threads = st.threads) ∧
    (cpuReportsCores item = false → st'.cores = st.cores) := by
  unfold cpuStep at h
  obtain ⟨kvs, hkvs, h2⟩ := pbind_ok h
  clear h
  have hit := asDictE_ok hkvs
  subst hit
  dsimp only [] at h2
  obtain ⟨st₁, hInfo, h3⟩ := pbind_ok h2
  have hst' := ppure_ok h3
  obtain ⟨hIt, hIs, hIc⟩ := cpuUpdInfo_ok _ _ _ hInfo
  have hP := cpuUpdPass_topo (cleanItem kvs) st
  have hC := cpuUpdCores_proj (cleanItem kvs) st₁
  have hT := cpuUpdThreads_proj (cleanItem kvs) (cpuUpdCores (cleanItem kvs) st₁)
  have hTail := cpuUpdTail_topo (cleanItem kvs)
    (cpuUpdSpeeds (cleanItem kvs) (cpuUpdThreads (cleanItem kvs) (cpuUpdCores (cleanItem kvs) st₁)))
  constructor
  · intro hr
    unfold cpuReportsThreads at hr
    rw [← hst']
    rw [hTail.1, (cpuUpdSpeeds_proj _ _).1, hT.2.2 hr, hC.1, hIt, hP.1]
  · intro hr
    unfold cpuReportsCores at hr
    simp only [Bool.or_eq_false_iff] at hr
    rw [← hst']
    rw [hTail.2.1, (cpuUpdSpeeds_proj _ _).2, hT.1, hC.2.2 hr.1, hIc hr.2, hP.2.1]

/-- Fold form of the `threads` preservation. -/
theorem cpuFold_threads (items : List JValue) :
    ∀ st st', items.foldlM cpuStep st = .ok st' →
      (∀ it ∈ items, cpuReportsThreads it = false) → st'.threads = st.threads := by
  induction items with
  | nil =>
      intro st st' h _
      simp only [List.foldlM_nil] at h
      rw [ppure_ok h]
  | cons it rest ih =>
      intro st st' h hr
      simp only [List.foldlM_cons] at h
      obtain ⟨st₁, hstep, hrest⟩ := pbind_ok h
      rw [ih st₁ st' hrest (fun x hx => hr x (by simp [hx]))]
      exact (cpuStep_topology st it st₁ hstep).1 (hr it (by simp))

/-- Fold form of the `cores` preservation. -/
theorem cpuFold_cores (items : List JValue) :
    ∀ st st', items.foldlM cpuStep st = .ok st' →
      (∀ it ∈ items, cpuReportsCores it = false) → st'.cores = st.cores := by
  induction items with
  | nil =>
      intro st st' h _
      simp only [List.foldlM_nil] at h
      rw [ppure_ok h]
  | cons it rest ih =>
      intro st st' h hr
      simp only [List.foldlM_cons] at h
      obtain ⟨st₁, hstep, hrest⟩ := pbind_ok h
      rw [ih st₁ st' hrest (fun x hx => hr x (by simp [hx]))]
      exact (cpuStep_topology st it st₁ hstep).2 (hr it (by simp))

/-- Characterization of the post-loop fallback when no `threads` was
reported: `threads` becomes the `core_speeds` count, and `cores` (when
also unreported) becomes `threads // 2` or `threads`. -/
theorem cpuFinal_char (st : CpuState) (hthr : st.threads = 0) :
    (cpuFinal st).coreSpeeds = st.coreSpeeds ∧
    (cpuFinal st).threads = (st.coreSpeeds.length : Int) ∧
    (st.cores = 0 → (cpuFinal st).cores =
      (if ((st.coreSpeeds.length : Int)).fdiv 2 = 0 then (st.coreSpeeds.length : Int)
       else ((st.coreSpeeds.length : Int)).fdiv 2)) := by
  unfold cpuFinal
  rw [hthr]
  rw [if_pos (rfl : (0 : Int) = 0)]
  dsimp only []
  by_cases hc : ((st.coreSpeeds.length : Int)) > 0 ∧ st.cores = 0
  · rw [if_pos hc]
    exact ⟨rfl, rfl, fun _ => rfl⟩
  · rw [if_neg hc]
    refine ⟨rfl, rfl, fun hcor => ?_⟩
    have hn0 : (st.coreSpeeds.length : Int) = 0 := by
      rcases not_and_or.mp hc with h | h
      · omega
      · exact absurd hcor h
    rw [hcor, hn0]
    simp [Int.zero_fdiv]

/-- C7: when no item reports a parseable `threads`, the returned
`threads` is the number of collected `core_speeds` entries; when in
addition no item reports or mines a core count, the returned `cores` is
`threads // 2`, or `threads` itself when that floors to zero. -/
theorem c7_cpu_thread_core_fallback (items : List JValue) (c : PyDict)
    (h : parseCpuSection (.list items) = .ok c)
    (hth : ∀ it ∈ items, cpuReportsThreads it = false) :
    ∃ cs : List (Nat × JValue),
      dGet c "core_speeds" = some (.idict cs) ∧
      dGet c "threads" = some (.int (cs.length : Int)) ∧
      ((∀ it ∈ items, cpuReportsCores it = false) →
        dGet c "cores" = some (.int
          (if ((cs.length : Int)).fdiv 2 = 0 then (cs.length : Int)
           else ((cs.length : Int)).fdiv 2))) := by
  unfold parseCpuSection at h
  obtain ⟨its, hits, h₂⟩ := pbind_ok h
  have hits' : its = items := by simpa [pyIterE] using hits.symm
  subst hits'
  obtain ⟨st, hfold, hpure⟩ := pbind_ok h₂
  have hc := ppure_ok hpure
  subst hc
  have hthr : st.threads = 0 := cpuFold_threads its ({} : CpuState) st hfold hth
  obtain ⟨hcs, hthr', hcor'⟩ := cpuFinal_char st hthr
  refine ⟨st.coreSpeeds, ?_, ?_, ?_⟩
  · rw [← hcs]
    simp [renderCpu, dGet]
  · rw [← hthr']
    simp [renderCpu, dGet]
  · intro hco
    have hcor : st.cores = 0 := cpuFold_cores its ({} : CpuState) st hfold hco
    rw [← hcor' hcor]
    simp [renderCpu, dGet]

/-- Closed witness for C7: four per-thread speeds and no explicit
fields yield `threads = 4`, `cores = 2`. -/
theorem c7_cpu_thread_core_fallback_witness :
    ∃ cs : List (Nat × JValue),
      dGet (renderCpu (cpuFinal { coreSpeeds :=
          [(0, .str "2400"), (1, .str "2400"), (2, .str "2400"), (3, .str "2400")] }))
        "core_speeds" = some (.idict cs) ∧
      dGet (renderCpu (cpuFinal { coreSpeeds :=
          [(0, .str "2400"), (1, .str "2400"), (2, .str "2400"), (3, .str "2400")] }))
        "threads" = some (.int (cs.length : Int)) ∧
      ((∀ it ∈ ([.dict [("000#1#1#0", .str "2400"), ("001#1#1#1", .str "2400"),
          ("002#1#1#2", .str "2400"), ("003#1#1#3", .str "2400")]] : List JValue),
          cpuReportsCores it = false) →
        dGet (renderCpu (cpuFinal { coreSpeeds :=
            [(0, .str "2400"), (1, .str "2400"), (2, .str "2400"), (3, .str "2400")] }))
          "cores" = some (.int
            (if ((cs.length : Int)).fdiv 2 = 0 then (cs.length : Int)
             else ((cs.length : Int)).fdiv 2))) :=
  c7_cpu_thread_core_fallback
    [.dict [("000#1#1#0", .str "2400"), ("001#1#1#1", .str "2400"),
            ("002#1#1#2", .str "2400"), ("003#1#1#3", .str "2400")]]
    _ rfl (by decide)

/-!  C6: webcam/GPU classification in the Graphics parser.  -/

/-- Splitting a successful monadic fold over an appended list. -/
theorem foldlM_append_ok {α σ : Type} (f : σ → α → P σ) (l₁ l₂ : List α)
    (s s'' : σ) (h : (l₁ ++ l₂).foldlM f s = .ok s'') :
    ∃ s₁, l₁.foldlM f s = .ok s₁ ∧ l₂.foldlM f s₁ = .ok s'' := by
  induction l₁ generalizing s with
  | nil => exact ⟨s, rfl, by simpa using h⟩
  | cons a l₁ ih =>
      rw [List.cons_append] at h
      simp only [List.foldlM_cons] at h
      obtain ⟨s₁, h₁, h₂⟩ := pbind_ok h
      obtain ⟨s₂, h₃, h₄⟩ := ih s₁ h₂
      refine ⟨s₂, ?_, h₄⟩
      simp only [List.foldlM_cons, h₁]
      simpa [Bind.bind, Except.bind] using h₃

/-- The GPU loop only ever appends to the device and webcam lists. -/
def gpuExtends (a b : GpuState) : Prop :=
  (∃ t, b.devices = a.devices ++ t) ∧ (∃ t, b.webcams = a.webcams ++ t)

/-- Reflexivity of the extension relation. -/
theorem gpuExtends_refl (a : GpuState) : gpuExtends a a :=
  ⟨⟨[], by simp⟩, ⟨[], by simp⟩⟩

/-- Transitivity of the extension relation. -/
theorem gpuExtends_trans {a b c : GpuState} (h₁ : gpuExtends a b)
    (h₂ : gpuExtends b c) : gpuExtends a c := by
  obtain ⟨⟨t₁, hd₁⟩, ⟨u₁, hw₁⟩⟩ := h₁
  obtain ⟨⟨t₂, hd₂⟩, ⟨u₂, hw₂⟩⟩ := h₂
  exact ⟨⟨t₁ ++ t₂, by rw [hd₂, hd₁, List.append_assoc]⟩,
         ⟨u₁ ++ u₂, by rw [hw₂, hw₁, List.append_assoc]⟩⟩

/-- One GPU item visit only appends to the two lists. -/
theorem gpuStep_extends {st : GpuState} {item : JValue} {st' : GpuState}
    (h : gpuStep st item = .ok st') : gpuExtends st st' := by
  unfold gpuStep at h
  obtain ⟨kvs, hkvs, h₂⟩ := pbind_ok h
  clear h
  dsimp only [] at h₂
  split at h₂
  · obtain ⟨dn, hdn, h₃⟩ := pbind_ok h₂
    obtain ⟨dr, hdr, h₄⟩ := pbind_ok h₃
    split at h₄
    · obtain rfl : _ = st' := ppure_ok h₄
      exact ⟨⟨[], by simp⟩, ⟨[mkWebcam (cleanItem kvs)], rfl⟩⟩
    · split at h₄
      · obtain rfl : _ = st' := ppure_ok h₄
        exact ⟨⟨[mkGpuDevice (cleanItem kvs)], rfl⟩, ⟨[], by simp⟩⟩
      · obtain rfl : _ = st' := ppure_ok h₄
        exact gpuExtends_refl st
  · repeat' split at h₂
    all_goals obtain rfl : _ = st' := ppure_ok h₂
    all_goals exact ⟨⟨[], by simp⟩, ⟨[], by simp⟩⟩

/-- The whole GPU loop only appends to the two lists. -/
theorem gpuFold_extends (l : List JValue) :
    ∀ s s', l.foldlM gpuStep s = .ok s' → gpuExtends s s' := by
  induction l with
  | nil =>
      intro s s' h
      simp only [List.foldlM_nil] at h
      exact (ppure_ok h) ▸ gpuExtends_refl s
  | cons a l ih =>
      intro s s' h
      simp only [List.foldlM_cons] at h
      obtain ⟨s₁, h₁, h₂⟩ := pbind_ok h
      exact gpuExtends_trans (gpuStep_extends h₁) (ih s₁ s' h₂)

/-- One GPU item carrying a string `Device` (and string-or-absent
`driver`) is appended to `webcams` exactly when it matches the webcam
keywords and not the GPU keywords, to `devices` otherwise. -/
theorem gpuStep_classifies {st : GpuState} {kvs : PyDict} {st' : GpuState}
    {nm ds : String}
    (h : gpuStep st (.dict kvs) = .ok st')
    (hdev : dGet (cleanItem kvs) "Device" = some (.str nm))
    (hdrv : dGetD (cleanItem kvs) "driver" (.str "") = .str ds) :
    if isWebcamItem (lowerStr nm) (lowerStr ds) &&
        !isGpuItem (lowerStr nm) (lowerStr ds)
    then st'.webcams = st.webcams ++ [mkWebcam (cleanItem kvs)]
    else st'.devices = st.devices ++ [mkGpuDevice (cleanItem kvs)] := by
  unfold gpuStep at h
  obtain ⟨kvs', hkvs, h₂⟩ := pbind_ok h
  clear h
  have hk : kvs' = kvs := by simpa [asDictE] using hkvs.symm
  rw [hk] at h₂
  dsimp only [] at h₂
  rw [show dMem (cleanItem kvs) "Device" = true from by simp [dMem, hdev]] at h₂
  simp only [if_true] at h₂
  obtain ⟨dn, hdn, h₃⟩ := pbind_ok h₂
  obtain ⟨dr, hdr, h₄⟩ := pbind_ok h₃
  have hdn' : dn = lowerStr nm := by
    rw [dGetD, hdev] at hdn
    simpa [asStrLowerE] using hdn.symm
  have hdr' : dr = lowerStr ds := by
    rw [hdrv] at hdr
    simpa [asStrLowerE] using hdr.symm
  subst hdn' hdr'
  try dsimp only [] at h₄
  rcases hcls : isWebcamItem (lowerStr nm) (lowerStr ds) &&
      !isGpuItem (lowerStr nm) (lowerStr ds)
  · rw [hcls] at h₄
    simp only [Bool.false_eq_true, if_false] at h₄
    have hcond : (!isWebcamItem (lowerStr nm) (lowerStr ds) ||
        isGpuItem (lowerStr nm) (lowerStr ds)) = true := by
      rcases hw : isWebcamItem (lowerStr nm) (lowerStr ds) <;>
        rcases hg : isGpuItem (lowerStr nm) (lowerStr ds) <;>
        simp_all
    rw [hcond] at h₄
    simp only [if_true] at h₄
    obtain rfl : _ = st' := ppure_ok h₄
    simp
  · rw [hcls] at h₄
    simp only [if_true] at h₄
    obtain rfl : _ = st' := ppure_ok h₄
    simp

/-- C6: a GPU-section item matching the webcam keywords and not the GPU
keywords is appended to `webcams`; otherwise — including when both
match — it is appended to `devices`. In particular
`Device = "Integrated Webcam"`, `driver = "uvcvideo"` yields a webcam
and `Device = "NVIDIA GeForce RTX 3080"` yields a GPU device. -/
theorem c6_gpu_webcam_classification :
    (∀ (items : List JValue) (g : PyDict),
      parseGpuSection (.list items) = .ok g →
      ∀ item ∈ items, ∀ kvs : PyDict, item = .dict kvs →
      ∀ nm ds : String,
        dGet (cleanItem kvs) "Device" = some (.str nm) →
        dGetD (cleanItem kvs) "driver" (.str "") = .str ds →
        (if isWebcamItem (lowerStr nm) (lowerStr ds) &&
            !isGpuItem (lowerStr nm) (lowerStr ds)
         then ∃ l, dGet g "webcams" = some (.list l) ∧
                JValue.dict (mkWebcam (cleanItem kvs)) ∈ l
         else ∃ l, dGet g "devices" = some (.list l) ∧
                JValue.dict (mkGpuDevice (cleanItem kvs)) ∈ l)) ∧
    (∃ g, parseGpuSection (.list
        [.dict [("000#1#1#Device", .str "Integrated Webcam"),
                ("001#1#1#driver", .str "uvcvideo")]]) = .ok g ∧
      (∃ w, dGet g "webcams" = some (.list [.dict w]) ∧
        dGet w "name" = some (.str "Integrated Webcam")) ∧
      dGet g "devices" = some (.list [])) ∧
    (∃ g, parseGpuSection (.list
        [.dict [("000#1#1#Device", .str "NVIDIA GeForce RTX 3080")]]) = .ok g ∧
      (∃ d, dGet g "devices" = some (.list [.dict d]) ∧
        dGet d "name" = some (.str "NVIDIA GeForce RTX 3080")) ∧
      dGet g "webcams" = some (.list [])) := by
  refine ⟨?_, ⟨_, rfl, ⟨_, rfl, rfl⟩, rfl⟩, ⟨_, rfl, ⟨_, rfl, rfl⟩, rfl⟩⟩
  intro items g hparse item hmem kvs hitem nm ds hdev hdrv
  subst hitem
  unfold parseGpuSection at hparse
  obtain ⟨its, hits, h₂⟩ := pbind_ok hparse
  have hits' : its = items := by simpa [pyIterE] using hits.symm
  subst hits'
  obtain ⟨stF, hfold, h₃⟩ := pbind_ok h₂
  obtain rfl : _ = g := ppure_ok h₃
  obtain ⟨l₁, l₂, rfl⟩ := List.append_of_mem hmem
  obtain ⟨s₁, hf₁, hf₂⟩ := foldlM_append_ok _ l₁ _ _ _ hfold
  simp only [List.foldlM_cons] at hf₂
  obtain ⟨s₂, hstep, hrest⟩ := pbind_ok hf₂
  have hclass := gpuStep_classifies hstep hdev hdrv
  have hext := gpuFold_extends l₂ s₂ stF hrest
  rcases hcls : isWebcamItem (lowerStr nm) (lowerStr ds) &&
      !isGpuItem (lowerStr nm) (lowerStr ds)
  · rw [hcls] at hclass
    simp only [Bool.false_eq_true, if_false] at hclass ⊢
    obtain ⟨t, hdevs⟩ := hext.1
    refine ⟨stF.devices.map JValue.dict, by simp [renderGpu, dGet], ?_⟩
    refine List.mem_map_of_mem _ ?_
    rw [hdevs, hclass]
    simp
  · rw [hcls] at hclass
    simp only [if_true] at hclass ⊢
    obtain ⟨t, hwebs⟩ := hext.2
    refine ⟨stF.webcams.map JValue.dict, by simp [renderGpu, dGet], ?_⟩
    refine List.mem_map_of_mem _ ?_
    rw [hwebs, hclass]
    simp

/-- Closed witness for C6's general clause at the webcam item. -/
theorem c6_gpu_webcam_classification_witness :
    if isWebcamItem (lowerStr "Integrated Webcam") (lowerStr "uvcvideo") &&
        !isGpuItem (lowerStr "Integrated Webcam") (lowerStr "uvcvideo")
    then ∃ l, dGet (renderGpu { webcams := [mkWebcam
          (cleanItem [("Device", .str "Integrated Webcam"),
                      ("driver", .str "uvcvideo")])] }) "webcams"
          = some (.list l) ∧
        JValue.dict (mkWebcam (cleanItem
          [("Device", .str "Integrated Webcam"),
           ("driver", .str "uvcvideo")])) ∈ l
    else ∃ l, dGet (renderGpu { webcams := [mkWebcam
          (cleanItem [("Device", .str "Integrated Webcam"),
                      ("driver", .str "uvcvideo")])] }) "devices"
          = some (.list l) ∧
        JValue.dict (mkGpuDevice (cleanItem
          [("Device", .str "Integrated Webcam"),
           ("driver", .str "uvcvideo")])) ∈ l :=
  c6_gpu_webcam_classification.1
    [.dict [("Device", .str "Integrated Webcam"), ("driver", .str "uvcvideo")]]
    _ rfl _ (by simp) _ rfl "Integrated Webcam" "uvcvideo" rfl rfl

/-!  C3: the PCI dedup invariant of the cross-section synthesizer.  -/

/-- A unified entry carries exactly the bus id it was built from. -/
theorem busOf_mkPciEntry (dd : PyDict) (bus : JValue) (c k : String) :
    busOf (mkPciEntry dd bus c k) = bus := rfl

/-- A unified entry carries exactly the category it was built from. -/
theorem cat_mkPciEntry (dd : PyDict) (bus : JValue) (c k : String) :
    dGet (mkPciEntry dd bus c k) "category" = some (.str k) := rfl

/-- Python scalar equality is symmetric. -/
theorem jEqScalar_symm (a b : JValue) : jEqScalar a b = jEqScalar b a := by
  unfold jEqScalar
  cases a <;> cases b <;> simp [qOfNum, eq_comm]

/-- Python scalar equality is transitive. -/
theorem jEqScalar_trans {a b c : JValue} (h₁ : jEqScalar a b = true)
    (h₂ : jEqScalar b c = true) : jEqScalar a c = true := by
  unfold jEqScalar at h₁ h₂ ⊢
  cases a <;> cases b <;> cases c <;> simp_all [qOfNum, beq_iff_eq]

/-- Python scalar equality is reflexive on hashable values. -/
theorem jEqScalar_refl {b : JValue} (hb : hashableB b = true) :
    jEqScalar b b = true := by
  cases b <;> simp_all [hashableB, jEqScalar, qOfNum, beq_iff_eq]

/-- Case analysis on one successful PCI-synthesizer visit: either the
state is unchanged, or the device is a mapping with a hashable truthy
bus id jEq-distinct from every seen one, and both entry and bus are
appended. -/
theorem pciStep_cases {f : Bool} {c k : String}
    {st : List PyDict × List JValue} {dev : JValue}
    {st' : List PyDict × List JValue}
    (h : pciStep f c k st dev = .ok st') :
    st' = st ∨
    ∃ dd : PyDict, dev = .dict dd ∧
      hashableB (busOf dd) = true ∧
      pyTruthy (busOf dd) = true ∧
      (∀ b ∈ st.2, jEqScalar b (busOf dd) = false) ∧
      st' = (st.1 ++ [mkPciEntry dd (busOf dd) c k], st.2 ++ [busOf dd]) := by
  unfold pciStep at h
  obtain ⟨dd, hdd, h₂⟩ := pbind_ok h
  clear h
  obtain rfl : dev = .dict dd := asDictE_ok hdd
  dsimp only [] at h₂
  rcases ht : pyTruthy (dGetD dd "bus_id" (.str "")) with _ | _
  · rw [ht] at h₂
    simp only [Bool.not_false, if_true] at h₂
    exact .inl (ppure_ok h₂).symm
  · rw [ht] at h₂
    simp only [Bool.not_true, Bool.false_eq_true, if_false] at h₂
    cases f with
    | true =>
        simp only [if_true] at h₂
        split at h₂
        next s heq =>
          obtain ⟨bs, hm, h₃⟩ := pbind_ok h₂
          obtain rfl : s = bs := by
            simpa using hm
          split at h₃
          · split at h₃
            next hg =>
              exact .inl (ppure_ok h₃).symm
            next hg =>
              refine .inr ⟨dd, rfl, ?_, ht, ?_, (ppure_ok h₃).symm⟩
              · rw [busOf, heq]; rfl
              · intro b hb
                have := (List.any_eq_false.mp (Bool.not_eq_true _ ▸ hg)) b hb
                simpa using this
          · exact .inl (ppure_ok h₃).symm
        next =>
          obtain ⟨bs, hm, h₃⟩ := pbind_ok h₂
          exact Except.noConfusion hm
    | false =>
        simp only [Bool.false_eq_true, if_false] at h₂
        split at h₂
        · exact Except.noConfusion h₂
        next hh =>
          split at h₂
          next hg =>
            exact .inl (ppure_ok h₂).symm
          next hg =>
            refine .inr ⟨dd, rfl, ?_, ht, ?_, (ppure_ok h₂).symm⟩
            · simpa using hh
            · intro b hb
              have := (List.any_eq_false.mp (Bool.not_eq_true _ ▸ hg)) b hb
              simpa using this

/-- The seen-bus list mirrors the entries and is jEq-pairwise-distinct. -/
def pciInv (st : List PyDict × List JValue) : Prop :=
  st.2 = st.1.map busOf ∧ st.2.Pairwise (fun a b => jEqScalar a b = false)

/-- Every accumulated entry is Graphics-sourced (phase-1 invariant). -/
def pciAllGraphics (st : List PyDict × List JValue) : Prop :=
  ∀ e ∈ st.1, dGet e "category" = some (.str "Graphics")

/-- A bus id already seen via a Graphics entry stays resolved to a
Graphics entry (phase-2/3 invariant). -/
def pciPrio (b : JValue) (st : List PyDict × List JValue) : Prop :=
  (∃ b₂ ∈ st.2, jEqScalar b₂ b = true) ∧
  (∀ e ∈ st.1, jEqScalar (busOf e) b = true →
     dGet e "category" = some (.str "Graphics"))

/-- One visit preserves the dedup invariant. -/
theorem pciStep_inv {f : Bool} {c k : String}
    {st : List PyDict × List JValue} {dev : JValue}
    {st' : List PyDict × List JValue}
    (h : pciStep f c k st dev = .ok st') (hI : pciInv st) : pciInv st' := by
  rcases pciStep_cases h with rfl | ⟨dd, _, _, _, hguard, rfl⟩
  · exact hI
  · obtain ⟨hmap, hpw⟩ := hI
    refine ⟨by simp [hmap, busOf_mkPciEntry], ?_⟩
    rw [List.pairwise_append]
    refine ⟨hpw, List.pairwise_singleton _ _, ?_⟩
    intro a ha b hb
    obtain rfl := List.mem_singleton.mp hb
    exact hguard a ha

/-- A Graphics-phase visit keeps every entry Graphics-sourced. -/
theorem pciStep_graphics {f : Bool} {c : String}
    {st : List PyDict × List JValue} {dev : JValue}
    {st' : List PyDict × List JValue}
    (h : pciStep f c "Graphics" st dev = .ok st')
    (hG : pciAllGraphics st) : pciAllGraphics st' := by
  rcases pciStep_cases h with rfl | ⟨dd, _, _, _, _, rfl⟩
  · exact hG
  · intro e he
    rcases List.mem_append.mp he with he | he
    · exact hG e he
    · obtain rfl := List.mem_singleton.mp he
      exact cat_mkPciEntry ..

/-- Any visit preserves the Graphics-priority invariant: a bus id with
a seen jEq-equal witness can never be re-added by a later phase. -/
theorem pciStep_prio {f : Bool} {c k : String} {b : JValue}
    {st : List PyDict × List JValue} {dev : JValue}
    {st' : List PyDict × List JValue}
    (h : pciStep f c k st dev = .ok st') (hP : pciPrio b st) :
    pciPrio b st' := by
  rcases pciStep_cases h with rfl | ⟨dd, _, hhash, _, hguard, rfl⟩
  · exact hP
  · obtain ⟨⟨b₂, hb₂, hbeq⟩, hall⟩ := hP
    refine ⟨⟨b₂, List.mem_append_left _ hb₂, hbeq⟩, ?_⟩
    intro e he heq
    rcases List.mem_append.mp he with he | he
    · exact hall e he heq
    · obtain rfl := List.mem_singleton.mp he
      rw [busOf_mkPciEntry] at heq
      have h₁ : jEqScalar b (busOf dd) = true := by
        rw [jEqScalar_symm]; exact heq
      have h₂ : jEqScalar b₂ (busOf dd) = true := jEqScalar_trans hbeq h₁
      rw [hguard b₂ hb₂] at h₂
      exact absurd h₂ (by simp)

/-- The PCI fold only ever appends to both components. -/
theorem pciFold_mono (f : Bool) (c k : String) (l : List JValue) :
    ∀ st st', l.foldlM (pciStep f c k) st = .ok st' →
      (∃ t, st'.1 = st.1 ++ t) ∧ (∃ t, st'.2 = st.2 ++ t) := by
  induction l with
  | nil =>
      intro st st' h
      simp only [List.foldlM_nil] at h
      obtain rfl : st = st' := ppure_ok h
      exact ⟨⟨[], by simp⟩, ⟨[], by simp⟩⟩
  | cons a l ih =>
      intro st st' h
      simp only [List.foldlM_cons] at h
      obtain ⟨s₁, h₁, h₂⟩ := pbind_ok h
      obtain ⟨⟨t₁, hd⟩, ⟨t₂, hs⟩⟩ := ih s₁ st' h₂
      rcases pciStep_cases h₁ with rfl | ⟨dd, _, _, _, _, rfl⟩
      · exact ⟨⟨t₁, hd⟩, ⟨t₂, hs⟩⟩
      · exact ⟨⟨mkPciEntry dd (busOf dd) c k :: t₁,
                by rw [hd]; simp⟩,
              ⟨busOf dd :: t₂, by rw [hs]; simp⟩⟩

/-- A successful Graphics-phase visit of a mapping with a truthy bus id
leaves a Graphics entry jEq-equal to that bus id in the accumulator. -/
theorem pciStep_gpu_hit {st : List PyDict × List JValue} {dd : PyDict}
    {st' : List PyDict × List JValue}
    (h : pciStep false "0300" "Graphics" st (.dict dd) = .ok st')
    (hb : pyTruthy (busOf dd) = true)
    (hI : pciInv st) (hG : pciAllGraphics st) :
    ∃ e ∈ st'.1, jEqScalar (busOf e) (busOf dd) = true ∧
      dGet e "category" = some (.str "Graphics") := by
  unfold pciStep at h
  obtain ⟨dd₂, hdd, h₂⟩ := pbind_ok h
  clear h
  have hd₂ : dd₂ = dd := by simpa [asDictE] using hdd.symm
  rw [hd₂] at h₂
  dsimp only [] at h₂
  rw [show dGetD dd "bus_id" (.str "") = busOf dd from rfl, hb] at h₂
  simp only [Bool.not_true, Bool.false_eq_true, if_false] at h₂
  split at h₂
  · exact Except.noConfusion h₂
  next hh =>
    split at h₂
    next hg =>
      obtain rfl : st = st' := ppure_ok h₂
      obtain ⟨b₂, hb₂, hbeq⟩ := by
        simpa using List.any_eq_true.mp hg
      rw [hI.1] at hb₂
      obtain ⟨e, he, rfl⟩ := List.mem_map.mp hb₂
      exact ⟨e, he, hbeq, hG e he⟩
    next hg =>
      refine ⟨mkPciEntry dd (busOf dd) "0300" "Graphics", ?_, ?_, ?_⟩
      · rw [← (ppure_ok h₂)]
        simp
      · rw [busOf_mkPciEntry]
        exact jEqScalar_refl (by simpa using hh)
      · exact cat_mkPciEntry ..

/-- The Python key-sort returns a permutation when it returns at all. -/
theorem pySortByBus_perm {ds sorted : List PyDict}
    (h : pySortByBus ds = .ok sorted) : sorted.Perm ds := by
  unfold pySortByBus at h
  split at h
  · injection h with h₂
    subst h₂
    exact List.Perm.refl _
  · injection h with h₂
    subst h₂
    exact List.Perm.refl _
  · split at h
    · injection h with h₂
      subst h₂
      exact List.perm_insertionSort _ _
    · split at h
      · injection h with h₂
        subst h₂
        exact List.perm_insertionSort _ _
      · exact Except.noConfusion h

/-- C3: whenever the cross-section synthesizer returns, the bus ids of
the unified device entries are pairwise jEq-distinct; and for every
GPU-sourced device mapping with a truthy bus id, the unified list
contains a Graphics-category entry for that bus id, and every entry
whose bus id equals it is Graphics-category — so a bus address shared
with the Audio or Network phases resolves to the GPU-sourced entry
alone. -/
theorem c3_pci_dedup_invariant (parsed : PyDict) (out : PyDict)
    (h : extractPciDevices parsed = .ok out) :
    ∃ entries : List PyDict,
      dGet out "devices" = some (.list (entries.map JValue.dict)) ∧
      dGet out "count" = some (.int (entries.length : Int)) ∧
      entries.Pairwise (fun e e₂ => jEqScalar (busOf e) (busOf e₂) = false) ∧
      (∀ gdevs, readDevices parsed "gpu" = .ok gdevs →
        ∀ gd ∈ gdevs, ∀ dd : PyDict, gd = .dict dd →
        pyTruthy (busOf dd) = true →
        (∃ e ∈ entries, jEqScalar (busOf e) (busOf dd) = true ∧
           dGet e "category" = some (.str "Graphics")) ∧
        (∀ e ∈ entries, jEqScalar (busOf e) (busOf dd) = true →
           dGet e "category" = some (.str "Graphics"))) := by
  unfold extractPciDevices at h
  obtain ⟨gdevs, hg, h₂⟩ := pbind_ok h
  clear h
  obtain ⟨st₁, hf₁, h₃⟩ := pbind_ok h₂
  clear h₂
  obtain ⟨adevs, ha, h₄⟩ := pbind_ok h₃
  clear h₃
  obtain ⟨st₂, hf₂, h₅⟩ := pbind_ok h₄
  clear h₄
  obtain ⟨ndevs, hn, h₆⟩ := pbind_ok h₅
  clear h₅
  obtain ⟨st₃, hf₃, h₇⟩ := pbind_ok h₆
  clear h₆
  obtain ⟨sorted, hs, h₈⟩ := pbind_ok h₇
  clear h₇
  obtain rfl : _ = out := ppure_ok h₈
  have hstepI : ∀ (f : Bool) (c k : String) s a s',
      pciStep f c k s a = .ok s' → pciInv s → pciInv s' :=
    fun _ _ _ _ _ _ h hI => pciStep_inv h hI
  have hInv₁ : pciInv st₁ :=
    foldlM_ok_invariant pciInv _ (hstepI false "0300" "Graphics")
      gdevs ([], []) st₁ hf₁ ⟨rfl, List.Pairwise.nil⟩
  have hInv₂ : pciInv st₂ :=
    foldlM_ok_invariant pciInv _ (hstepI true "0403" "Audio")
      adevs st₁ st₂ hf₂ hInv₁
  have hInv₃ : pciInv st₃ :=
    foldlM_ok_invariant pciInv _ (hstepI true "0200" "Network")
      ndevs st₂ st₃ hf₃ hInv₂
  have hperm : sorted.Perm st₃.1 := pySortByBus_perm hs
  have hsymm : Symmetric
      (fun e e₂ : PyDict => jEqScalar (busOf e) (busOf e₂) = false) := by
    intro x y hxy
    rw [jEqScalar_symm]
    exact hxy
  refine ⟨sorted, by simp [dGet], by simp [dGet], ?_, ?_⟩
  · have hpw : st₃.1.Pairwise
        (fun e e₂ => jEqScalar (busOf e) (busOf e₂) = false) := by
      have hp := hInv₃.2
      rw [hInv₃.1] at hp
      exact List.pairwise_map.mp hp
    exact hpw.perm hperm.symm fun hxy => hsymm hxy
  · intro gdevs₂ hg₂ gd hmem dd hdd hbt
    have hgd : gdevs₂ = gdevs := by
      have := hg.symm.trans hg₂
      simpa using this.symm
    subst hgd
    subst hdd
    obtain ⟨l₁, l₂, rfl⟩ := List.append_of_mem hmem
    obtain ⟨s₁, hfa, hfb⟩ := foldlM_append_ok _ l₁ _ _ _ hf₁
    simp only [List.foldlM_cons] at hfb
    obtain ⟨s₂, hstep, hrest⟩ := pbind_ok hfb
    have hIs₁ : pciInv s₁ :=
      foldlM_ok_invariant pciInv _ (hstepI false "0300" "Graphics")
        l₁ ([], []) s₁ hfa ⟨rfl, List.Pairwise.nil⟩
    have hstepG : ∀ s a s',
        pciStep false "0300" "Graphics" s a = .ok s' →
        pciAllGraphics s → pciAllGraphics s' :=
      fun _ _ _ h hG => pciStep_graphics h hG
    have hGs₁ : pciAllGraphics s₁ :=
      foldlM_ok_invariant pciAllGraphics _ hstepG l₁ ([], []) s₁ hfa
        (fun e he => absurd he (List.not_mem_nil e))
    obtain ⟨e₀, he₀, he₀eq, he₀cat⟩ := pciStep_gpu_hit hstep hbt hIs₁ hGs₁
    have hIs₂ : pciInv s₂ := pciStep_inv hstep hIs₁
    have hPs₂ : pciPrio (busOf dd) s₂ := by
      refine ⟨⟨busOf e₀, ?_, he₀eq⟩, ?_⟩
      · rw [hIs₂.1]
        exact List.mem_map_of_mem busOf he₀
      · intro e he _
        exact pciStep_graphics hstep hGs₁ e he
    have hstepP : ∀ (f : Bool) (c k : String) s a s',
        pciStep f c k s a = .ok s' →
        pciPrio (busOf dd) s → pciPrio (busOf dd) s' :=
      fun _ _ _ _ _ _ h hP => pciStep_prio h hP
    have hPst₁ : pciPrio (busOf dd) st₁ :=
      foldlM_ok_invariant _ _ (hstepP false "0300" "Graphics")
        l₂ s₂ st₁ hrest hPs₂
    have hPst₂ : pciPrio (busOf dd) st₂ :=
      foldlM_ok_invariant _ _ (hstepP true "0403" "Audio")
        adevs st₁ st₂ hf₂ hPst₁
    have hPst₃ : pciPrio (busOf dd) st₃ :=
      foldlM_ok_invariant _ _ (hstepP true "0200" "Network")
        ndevs st₂ st₃ hf₃ hPst₂
    obtain ⟨t₁, ht₁⟩ := (pciFold_mono _ _ _ l₂ s₂ st₁ hrest).1
    obtain ⟨t₂, ht₂⟩ := (pciFold_mono _ _ _ adevs st₁ st₂ hf₂).1
    obtain ⟨t₃, ht₃⟩ := (pciFold_mono _ _ _ ndevs st₂ st₃ hf₃).1
    have he₀₃ : e₀ ∈ st₃.1 := by
      rw [ht₃, ht₂, ht₁]
      simp [he₀]
    refine ⟨⟨e₀, hperm.mem_iff.mpr he₀₃, he₀eq, he₀cat⟩, ?_⟩
    intro e he heq
    exact hPst₃.2 e (hperm.mem_iff.mp he) heq

/-- A concrete parsed model with the same bus address in gpu and audio. -/
def c3Parsed : PyDict :=
  [("gpu", .dict [("devices", .list
      [.dict [("name", .str "NVIDIA RTX"), ("bus_id", .str "01:00.0")]])]),
   ("audio", .dict [("devices", .list
      [.dict [("name", .str "HDA Controller"),
              ("bus_id", .str "01:00.0")]])])]

/-- The synthesizer output on `c3Parsed`: one Graphics entry. -/
def c3Out : PyDict :=
  [("devices", .list [.dict (mkPciEntry
      [("name", .str "NVIDIA RTX"), ("bus_id", .str "01:00.0")]
      (.str "01:00.0") "0300" "Graphics")]),
   ("count", .int 1)]

/-- Closed witness for C3 on `c3Parsed`. -/
theorem c3_pci_dedup_invariant_witness :
    ∃ entries : List PyDict,
      dGet c3Out "devices" = some (.list (entries.map JValue.dict)) ∧
      dGet c3Out "count" = some (.int (entries.length : Int)) ∧
      entries.Pairwise (fun e e₂ => jEqScalar (busOf e) (busOf e₂) = false) ∧
      (∀ gdevs, readDevices c3Parsed "gpu" = .ok gdevs →
        ∀ gd ∈ gdevs, ∀ dd : PyDict, gd = .dict dd →
        pyTruthy (busOf dd) = true →
        (∃ e ∈ entries, jEqScalar (busOf e) (busOf dd) = true ∧
           dGet e "category" = some (.str "Graphics")) ∧
        (∀ e ∈ entries, jEqScalar (busOf e) (busOf dd) = true →
           dGet e "category" = some (.str "Graphics"))) :=
  c3_pci_dedup_invariant c3Parsed c3Out rfl

/-!  C4: which malformed shapes are absorbed and which raise.  -/

/-- A full document whose fifteen recognized sections each hold one item
mapping with every companion key missing. -/
def c4Doc : JValue :=
  .list [.dict
    [("000#1#0#CPU", .list [.dict []]),
     ("001#1#0#Graphics", .list [.dict []]),
     ("002#1#0#Memory", .list [.dict []]),
     ("003#1#0#Audio", .list [.dict []]),
     ("004#1#0#Network", .list [.dict []]),
     ("005#1#0#Drives", .list [.dict []]),
     ("006#1#0#System", .list [.dict []]),
     ("007#1#0#Machine", .list [.dict []]),
     ("008#1#0#Battery", .list [.dict []]),
     ("009#1#0#Sensors", .list [.dict []]),
     ("010#1#0#Info", .list [.dict []]),
     ("011#1#0#Processes", .list [.dict []]),
     ("012#1#0#Repos", .list [.dict []]),
     ("013#1#0#USB", .list [.dict []]),
     ("014#1#0#Bluetooth", .list [.dict []])]]

/-- C4 counterexample: a top-level list element that is not a mapping
makes `parse_full` raise `AttributeError` (on `section.items()`), so the
parse does not absorb every data-shape fault. -/
theorem c4_counterexample :
    parseFull ({} : Env) (.list [.int 42]) = .error .attributeError := rfl

/-- C4 (amended): document-level shape faults propagate — a non-mapping
top-level element raises `AttributeError`, a recognized section whose
value is not iterable raises `TypeError`, and a non-mapping section item
raises `AttributeError` — while item mappings with every companion key
missing are absorbed: a document exercising all fifteen recognized
sections with key-less items parses to completion. -/
theorem c4_malformed_input :
    parseFull ({} : Env) (.list [.dict [("000#CPU", .int 7)]])
      = .error .typeError ∧
    parseFull ({} : Env) (.list [.dict [("000#CPU", .list [.int 5])]])
      = .error .attributeError ∧
    (∃ r : PyDict, parseFull ({} : Env) c4Doc = .ok r) :=
  ⟨rfl, rfl, ⟨_, rfl⟩⟩

/-!  C8: classification of Memory-section items.  -/

/-- A Memory-section item is kept as the system-RAM summary: it has
`total`, no `Device`, and its total text mentions GiB/GB. -/
def memSummaryPred (cleaned : PyDict) : Bool :=
  dMem cleaned "total" && !dMem cleaned "Device" &&
    (pyIn "GiB" (pyStr (dGetD cleaned "total" (.str ""))) ||
     pyIn "GB" (pyStr (dGetD cleaned "total" (.str ""))))

/-- The total text of the first summary item (empty when none). -/
def memFirstTotal : List JValue → String
  | [] => ""
  | it :: rest =>
      match it with
      | .dict kvs =>
          let c := cleanItem kvs
          if memSummaryPred c then pyStr (dGetD c "total" (.str ""))
          else memFirstTotal rest
      | _ => memFirstTotal rest

/-- A Memory-section item is kept as a RAM module: it has `Device` and a
truthy `size` that does not report "No Module". -/
def memModulePred (cleaned : PyDict) : Bool :=
  dMem cleaned "Device" && dMem cleaned "size" &&
    (pyTruthy (dGetD cleaned "size" (.str "")) &&
     !pyIn "No Module" (pyStr (dGetD cleaned "size" (.str ""))))

/-- The module records of all module items, in order. -/
def memModulesSpec (items : List JValue) : List PyDict :=
  items.filterMap (fun it =>
    match it with
    | .dict kvs =>
        let c := cleanItem kvs
        if memModulePred c then some (mkModule c) else none
    | _ => none)

/-- The `total` update touches nothing else and follows the summary
predicate, first-wins. -/
theorem memUpdTotal_total (c : PyDict) (st : MemState) :
    (memUpdTotal c st).total =
      (if memSummaryPred c ∧ st.total = "" then pyStr (dGetD c "total" (.str ""))
       else st.total) := by
  unfold memUpdTotal memSummaryPred
  rcases hT : dMem c "total" <;> rcases hD : dMem c "Device" <;>
    rcases hG : pyIn "GiB" (pyStr (dGetD c "total" (.str ""))) <;>
    rcases hB : pyIn "GB" (pyStr (dGetD c "total" (.str ""))) <;>
    by_cases hE : st.total = "" <;> simp [hT, hD, hG, hB, hE]

/-- The later per-item updates do not change `total`. -/
theorem memUpd_rest_total (c : PyDict) (st : MemState) :
    (memUpdModules c (memUpdExtra c (memUpdAvailable c (memUpdUsed c st)))).total
      = st.total := by
  have h1 : (memUpdUsed c st).total = st.total := by
    unfold memUpdUsed
    rcases dGet c "used" with _ | uv
    · rfl
    · by_cases h : st.used = "" <;> simp [h]
  have h2 : ∀ s : MemState, (memUpdAvailable c s).total = s.total := by
    intro s
    unfold memUpdAvailable
    rcases dGet c "available" with _ | av
    · rfl
    · by_cases h : s.available = "" <;> simp [h]
  have h3 : ∀ s : MemState, (memUpdExtra c s).total = s.total := by
    intro s
    unfold memUpdExtra
    rcases dGet c "capacity" with _ | v <;>
      rcases dGet c "slots" with _ | v₂ <;>
      rcases dGet c "EC" with _ | v₃ <;>
      rcases dGet c "note" with _ | v₄ <;>
      rcases dGet c "max-module-size" with _ | v₅ <;>
      rcases dGet c "modules" with _ | v₆ <;> rfl
  have h4 : ∀ s : MemState, (memUpdModules c s).total = s.total := by
    intro s
    unfold memUpdModules
    dsimp only []
    repeat' split
    all_goals rfl
  rw [h4, h3, h2, h1]

/-- The earlier per-item updates do not change `modules`. -/
theorem memUpd_front_modules (c : PyDict) (st : MemState) :
    (memUpdExtra c (memUpdAvailable c (memUpdUsed c (memUpdTotal c st)))).modules
      = st.modules := by
  have h0 : (memUpdTotal c st).modules = st.modules := by
    unfold memUpdTotal
    dsimp only []
    repeat' split
    all_goals rfl
  have h1 : ∀ s : MemState, (memUpdUsed c s).modules = s.modules := by
    intro s
    unfold memUpdUsed
    rcases dGet c "used" with _ | uv
    · rfl
    · by_cases h : s.used = "" <;> simp [h]
  have h2 : ∀ s : MemState, (memUpdAvailable c s).modules = s.modules := by
    intro s
    unfold memUpdAvailable
    rcases dGet c "available" with _ | av
    · rfl
    · by_cases h : s.available = "" <;> simp [h]
  have h3 : ∀ s : MemState, (memUpdExtra c s).modules = s.modules := by
    intro s
    unfold memUpdExtra
    rcases dGet c "capacity" with _ | v <;>
      rcases dGet c "slots" with _ | v₂ <;>
      rcases dGet c "EC" with _ | v₃ <;>
      rcases dGet c "note" with _ | v₄ <;>
      rcases dGet c "max-module-size" with _ | v₅ <;>
      rcases dGet c "modules" with _ | v₆ <;> rfl
  rw [h3, h2, h1, h0]

/-- The module update appends exactly the module-predicate record. -/
theorem memUpdModules_modules (c : PyDict) (st : MemState) :
    (memUpdModules c st).modules =
      st.modules ++ (if memModulePred c then [mkModule c] else []) := by
  unfold memUpdModules memModulePred
  rcases hD : dMem c "Device" <;> rcases hS : dMem c "size" <;>
    rcases hT : pyTruthy (dGetD c "size" (.str "")) <;>
    rcases hN : pyIn "No Module" (pyStr (dGetD c "size" (.str ""))) <;>
    simp [hD, hS, hT, hN]

/-- A GiB/GB-mentioning text is nonempty. -/
theorem summary_total_ne_empty {c : PyDict} (h : memSummaryPred c = true) :
    pyStr (dGetD c "total" (.str "")) ≠ "" := by
  intro he
  unfold memSummaryPred at h
  rw [he] at h
  simp [pyIn, hasSubL, startsWithL] at h

/-- Characterization of the Memory fold: `total` is first-wins over
summary items, `modules` collects exactly the module items. -/
theorem memFold_characterization (items : List JValue) :
    ∀ st st' : MemState, items.foldlM memStep st = .ok st' →
      (st.total ≠ "" → st'.total = st.total) ∧
      (st.total = "" → st'.total = memFirstTotal items) ∧
      st'.modules = st.modules ++ memModulesSpec items := by
  induction items with
  | nil =>
      intro st st' h
      simp only [List.foldlM_nil] at h
      have := ppure_ok h
      subst this
      exact ⟨fun _ => rfl, fun h => h, by simp [memModulesSpec]⟩
  | cons it rest ih =>
      intro st st' h
      simp only [List.foldlM_cons] at h
      obtain ⟨st₁, hstep, hrest⟩ := pbind_ok h
      unfold memStep at hstep
      obtain ⟨kvs, hkvs, hpure⟩ := pbind_ok hstep
      have hit := asDictE_ok hkvs
      subst hit
      have hst₁ := ppure_ok hpure
      obtain ⟨ihne, iheq, ihmod⟩ := ih st₁ st' hrest
      have htot₁ : st₁.total =
          (if memSummaryPred (cleanItem kvs) ∧ st.total = ""
           then pyStr (dGetD (cleanItem kvs) "total" (.str "")) else st.total) := by
        rw [← hst₁, memUpd_rest_total, memUpdTotal_total]
      have hmod₁ : st₁.modules = st.modules ++
          (if memModulePred (cleanItem kvs) then [mkModule (cleanItem kvs)] else []) := by
        rw [← hst₁, memUpdModules_modules, memUpd_front_modules]
      refine ⟨?_, ?_, ?_⟩
      · intro hne
        rw [if_neg (fun hc => hne hc.2)] at htot₁
        rw [ihne (htot₁ ▸ hne), htot₁]
      · intro heq
        by_cases hp : memSummaryPred (cleanItem kvs) = true
        · rw [if_pos ⟨hp, heq⟩] at htot₁
          rw [ihne (htot₁ ▸ summary_total_ne_empty hp), htot₁]
          simp [memFirstTotal, hp]
        · rw [if_neg (fun hc => hp hc.1)] at htot₁
          rw [iheq (htot₁ ▸ heq)]
          simp only [Bool.not_eq_true] at hp
          simp [memFirstTotal, hp]
      · rw [ihmod, hmod₁]
        by_cases hp : memModulePred (cleanItem kvs) = true
        · simp [memModulesSpec, hp]
        · simp only [Bool.not_eq_true] at hp
          simp [memModulesSpec, hp]

/-- C8, counterexample: a Device-less item carrying `total` = "16384
MiB" is NOT recorded as the summary total (the parser additionally
requires a GiB/GB-mentioning text), contradicting the claim that the
record's total is set to the first such item's total text. -/
theorem c8_counterexample :
    ∃ m, parseMemorySection (.list [.dict [("total", .str "16384 MiB")]]) = .ok m ∧
      dGet m "total" = some (.str "") ∧ "" ≠ "16384 MiB" :=
  ⟨_, rfl, rfl, by decide⟩

/-- C8, amended: the summary item is one carrying `total` and no
`Device` key WHOSE TOTAL TEXT MENTIONS GiB or GB — the record's total is
the first such item's total text — and the per-module items are exactly
those carrying both `Device` and a TRUTHY `size` not reporting "No
Module". -/
theorem c8_memory_item_classification (items : List JValue) (m : PyDict)
    (h : parseMemorySection (.list items) = .ok m) :
    dGet m "total" = some (.str (memFirstTotal items)) ∧
    dGet m "modules" = some (.list ((memModulesSpec items).map JValue.dict)) := by
  unfold parseMemorySection at h
  obtain ⟨its, hits, h₂⟩ := pbind_ok h
  have hits' : its = items := by
    simpa [pyIterE] using hits.symm
  subst hits'
  obtain ⟨st, hfold, hpure⟩ := pbind_ok h₂
  have hm := ppure_ok hpure
  obtain ⟨_, htot, hmod⟩ := memFold_characterization its ({} : MemState) st hfold
  subst hm
  have htot' : st.total = memFirstTotal its := htot rfl
  have hmod' : memModulesSpec its = st.modules := by simpa using hmod.symm
  constructor
  · rw [← htot']
    rcases st.modulesCount with _ | c <;> simp [renderMem, dGet]
  · rw [hmod']
    rcases st.modulesCount with _ | c <;> simp [renderMem, dGet]

/-- Memory state reached by the witness input of C8. -/
def c8WitState : MemState := { total := "16 GiB" }

/-- Closed witness for C8 at a one-item section. -/
theorem c8_memory_item_classification_witness :
    dGet (renderMem c8WitState) "total" = some (.str "16 GiB") ∧
    dGet (renderMem c8WitState) "modules" = some (.list []) := by
  have h := c8_memory_item_classification
    [.dict [("000#1#1#total", .str "16 GiB")]] _ rfl
  exact ⟨h.1, h.2⟩

/-- Closed witness for C9 at concrete keys. -/
theorem c9_clean_key_idempotent_witness :
    cleanKey (cleanKey "a#b") = cleanKey "a#b" ∧
    cleanKey ("x" ++ "#" ++ "y") = cleanKey "y" ∧
    ("Info" : String).data.contains '#' = false ∧ cleanKey "Info" = "Info" :=
  ⟨c9_clean_key_idempotent.1 "a#b",
   c9_clean_key_idempotent.2.2.2.1 "x" "y",
   by decide,
   c9_clean_key_idempotent.2.2.2.2 "Info" (by decide)⟩

end Inxi
